import Mathlib

/-!
Shallow embedding of the device-link subsystem of `marauder-tui`
(`src/marauder/serial_bridge.py` and `src/marauder/engine.py`).

Strings are modelled as `List Char` inside the parser (Python operates on
`str`, which behaves as a sequence of code points). Whitespace and case
conversion are modelled over the ASCII range, which covers every character
the protocol grammar uses; lines delivered by the reader never contain an
embedded newline (they are produced by `readline` and stripped of CR/LF).
-/

namespace Marauder

/-- Python `str.strip()` whitespace class, restricted to ASCII
(space, tab, LF, VT, FF, CR). -/
def isPyWs (c : Char) : Bool :=
  c = ' ' || c = '\t' || c = '\n' || c = '\x0b' || c = '\x0c' || c = '\r'

/-- Python `str.lstrip()` on the ASCII whitespace class. -/
def pyLStrip (s : List Char) : List Char := s.dropWhile isPyWs

/-- Python `str.rstrip()` on the ASCII whitespace class. -/
def pyRStrip (s : List Char) : List Char := (s.reverse.dropWhile isPyWs).reverse

/-- Python `str.strip()` on the ASCII whitespace class. -/
def pyStrip (s : List Char) : List Char := pyRStrip (pyLStrip s)

/-- Hexadecimal digit class `[0-9A-Fa-f]` used by the MAC-address regexes. -/
def isHexC (c : Char) : Bool :=
  c.isDigit || ('a' ≤ c && c ≤ 'f') || ('A' ≤ c && c ≤ 'F')

/-- Decide whether `pre` is an initial segment of `s`. -/
def isStartOf : List Char → List Char → Bool
  | [], _ => true
  | _ :: _, [] => false
  | a :: as, b :: bs => a = b && isStartOf as bs

/-- Decide whether `needle` occurs contiguously inside `hay`
(Python `re.search` on a fixed literal). -/
def hasSub (needle : List Char) : List Char → Bool
  | [] => needle.isEmpty
  | c :: t => isStartOf needle (c :: t) || hasSub needle t

/-- ASCII lower-casing of a whole string (`re.IGNORECASE` matching model). -/
def lowerList (s : List Char) : List Char := s.map Char.toLower

/-- ASCII upper-casing of a whole string (Python `str.upper()` on MAC text). -/
def upperList (s : List Char) : List Char := s.map Char.toUpper

/-- Value of a non-empty decimal digit string (`int(...)` on a `\d+` group). -/
def digitsVal (ds : List Char) : Nat :=
  ds.foldl (fun acc c => 10 * acc + (c.toNat - '0'.toNat)) 0

/-! ### Regex fragments as deterministic parsers

Each compiled pattern in `serial_bridge.py` is built from character classes
that are pairwise disjoint at every sequencing boundary, so greedy
maximal-munch parsing is equivalent to the backtracking regex semantics. -/

/-- `\d+` : one or more digits, longest match. -/
def takeDigits1 (s : List Char) : Option (List Char × List Char) :=
  let d := s.takeWhile Char.isDigit
  if d.isEmpty then none else some (d, s.dropWhile Char.isDigit)

/-- `(-?\d+)` followed by conversion with `int(...)`. -/
def parseIntTok (s : List Char) : Option (Int × List Char) :=
  match s with
  | [] => none
  | c :: t =>
    if c = '-' then (takeDigits1 t).map fun (d, r) => (-(digitsVal d : Int), r)
    else (takeDigits1 (c :: t)).map fun (d, r) => ((digitsVal d : Int), r)

/-- `\s+` : at least one whitespace character, then skip the rest. -/
def expectWs1 (s : List Char) : Option (List Char) :=
  match s with
  | c :: t => if isPyWs c then some (t.dropWhile isPyWs) else none
  | [] => none

/-- `\s*` : skip any whitespace. -/
def skipWs (s : List Char) : List Char := s.dropWhile isPyWs

/-- A fixed literal. -/
def expectLit : List Char → List Char → Option (List Char)
  | [], s => some s
  | _ :: _, [] => none
  | a :: as, b :: bs => if a = b then expectLit as bs else none

/-- `[0-9A-Fa-f]{2}` : exactly two hex digits. -/
def parseHexPair (s : List Char) : Option (List Char × List Char) :=
  match s with
  | a :: b :: t => if isHexC a && isHexC b then some ([a, b], t) else none
  | _ => none

/-- `:[0-9A-Fa-f]{2}` : a colon followed by a hex pair. -/
def parseColonPair (s : List Char) : Option (List Char × List Char) :=
  match s with
  | ':' :: t => (parseHexPair t).map fun (p, r) => (':' :: p, r)
  | _ => none

/-- `[0-9A-Fa-f]{2}(?::[0-9A-Fa-f]{2}){5}` : a full MAC address group;
the bounded repetition `{5}` is unrolled. -/
def parseMac (s : List Char) : Option (List Char × List Char) := do
  let (p0, s) ← parseHexPair s
  let (p1, s) ← parseColonPair s
  let (p2, s) ← parseColonPair s
  let (p3, s) ← parseColonPair s
  let (p4, s) ← parseColonPair s
  let (p5, s) ← parseColonPair s
  pure (p0 ++ p1 ++ p2 ++ p3 ++ p4 ++ p5, s)

/-- `_RE_AP` : `^(-?\d+)\s+Ch:\s*(\d+)\s+BSSID:\s*(MAC)\s+ESSID:\s*(.*?)\s*$`.
Returns `(rssi, channel, bssid, essid)` on a match; the lazy final group
with `\s*$` yields the remainder with trailing whitespace removed. -/
def matchAp (s : List Char) : Option (Int × Nat × List Char × List Char) := do
  let (r, s) ← parseIntTok s
  let s ← expectWs1 s
  let s ← expectLit "Ch:".data s
  let s := skipWs s
  let (ch, s) ← takeDigits1 s
  let s ← expectWs1 s
  let s ← expectLit "BSSID:".data s
  let s := skipWs s
  let (mac, s) ← parseMac s
  let s ← expectWs1 s
  let s ← expectLit "ESSID:".data s
  let s := skipWs s
  pure (r, digitsVal ch, mac, pyRStrip s)

/-- `_RE_STATION` : `^(-?\d+)\s+Station:\s*(MAC)\s+Associated:\s*(MAC)\s*$`. -/
def matchStation (s : List Char) : Option (Int × List Char × List Char) := do
  let (r, s) ← parseIntTok s
  let s ← expectWs1 s
  let s ← expectLit "Station:".data s
  let s := skipWs s
  let (mac, s) ← parseMac s
  let s ← expectWs1 s
  let s ← expectLit "Associated:".data s
  let s := skipWs s
  let (ap, s) ← parseMac s
  if (skipWs s).isEmpty then pure (r, mac, ap) else none

/-- Lazy `(.+?)\]` : the shortest non-empty span ending right before a `]`. -/
def splitFirstRB : List Char → Option (List Char × List Char)
  | [] => none
  | x :: t =>
    if x = ']' then some ([], t)
    else (splitFirstRB t).map fun (a, b) => (x :: a, b)

/-- `_RE_BLE_NAMED` : `^(-?\d+)\s+Device:\s*\[(.+?)\]\s*(.*?)\s*$`.
Returns `(rssi, brand, model)`; the brand group is the shortest non-empty
span before a `]`, the model group is the remainder stripped on both sides
(leading via greedy `\s*`, trailing via `\s*$`). -/
def matchBleNamed (s : List Char) : Option (Int × List Char × List Char) := do
  let (r, s) ← parseIntTok s
  let s ← expectWs1 s
  let s ← expectLit "Device:".data s
  let s := skipWs s
  match s with
  | '[' :: c :: t =>
    let (brand, rest) ← (splitFirstRB t).map fun (a, b) => (c :: a, b)
    pure (r, brand, pyStrip rest)
  | _ => none

/-- `_RE_BLE_MAC` : `^(-?\d+)\s+Device:\s*(MAC)\s*$`. -/
def matchBleMac (s : List Char) : Option (Int × List Char) := do
  let (r, s) ← parseIntTok s
  let s ← expectWs1 s
  let s ← expectLit "Device:".data s
  let s := skipWs s
  let (mac, s) ← parseMac s
  if (skipWs s).isEmpty then pure (r, mac) else none

/-- `_RE_BEACON.match` : the stripped line starts with `Beacon:`, any case. -/
def matchBeacon (s : List Char) : Bool :=
  isStartOf "beacon:".data (lowerList s)

/-- `_RE_SCAN_STARTED_AP.search` : `Starting AP scan`, ignoring case. -/
def searchScanStartedAp (s : List Char) : Bool :=
  hasSub "starting ap scan".data (lowerList s)

/-- `_RE_SCAN_STARTED_BT.search` : `Starting (Bluetooth|BLE|BT) scan`. -/
def searchScanStartedBt (s : List Char) : Bool :=
  hasSub "starting bluetooth scan".data (lowerList s) ||
  hasSub "starting ble scan".data (lowerList s) ||
  hasSub "starting bt scan".data (lowerList s)

/-- `_RE_SCAN_STARTED_STA.search` : `Starting (Station|STA) scan`. -/
def searchScanStartedSta (s : List Char) : Bool :=
  hasSub "starting station scan".data (lowerList s) ||
  hasSub "starting sta scan".data (lowerList s)

/-- `_RE_SCAN_STOPPED.search` : `(Shutting down BLE|Stopping WiFi|stopscan)`. -/
def searchScanStopped (s : List Char) : Bool :=
  hasSub "shutting down ble".data (lowerList s) ||
  hasSub "stopping wifi".data (lowerList s) ||
  hasSub "stopscan".data (lowerList s)

/-! ### Event dataclasses -/

/-- `APFound` dataclass. -/
structure APFound where
  ssid : String
  bssid : String
  channel : Int
  rssi : Int
deriving DecidableEq, Repr

/-- `StationFound` dataclass. -/
structure StationFound where
  mac : String
  rssi : Int
  associated_bssid : String
deriving DecidableEq, Repr

/-- `BLEDeviceFound` dataclass. -/
structure BLEDeviceFound where
  name : String
  mac : String
  rssi : Int
deriving DecidableEq, Repr

/-- The `Event` union of `serial_bridge.py`. -/
inductive Ev where
  | apFound (a : APFound)
  | stationFound (st : StationFound)
  | bleFound (b : BLEDeviceFound)
  | scanStarted (scanType : String)
  | scanStopped
  | disconnected (reason : String)
  | rawLine (text : String)
deriving DecidableEq, Repr

/-- Python `type(event).__name__`, used by the session recorder. -/
def evTypeName : Ev → String
  | .apFound _ => "APFound"
  | .stationFound _ => "StationFound"
  | .bleFound _ => "BLEDeviceFound"
  | .scanStarted _ => "ScanStarted"
  | .scanStopped => "ScanStopped"
  | .disconnected _ => "Disconnected"
  | .rawLine _ => "RawLine"

/-- Leading-prompt strip `line.lstrip("> ")`: remove any run of `>` and
space characters from the left. -/
def lstripPrompt (s : List Char) : List Char :=
  s.dropWhile (fun c => c = '>' || c = ' ')

/-- Pattern cascade of `SerialBridge._handle_line` on the stripped line
(`line.lstrip("> ").strip()`); `line` is the original text used by the
`RawLine` fallback. Pattern order is exactly the source's. -/
def parseStripped (line : String) (stripped : List Char) : Option Ev :=
  if matchBeacon stripped then none
  else
    match matchAp stripped with
      | some (r, ch, mac, essid) =>
        some (.apFound { rssi := r, channel := (ch : Int),
                         bssid := String.mk (upperList mac),
                         ssid := String.mk essid })
      | none =>
        match matchStation stripped with
        | some (r, mac, ap) =>
          some (.stationFound { rssi := r, mac := String.mk (upperList mac),
                                associated_bssid := String.mk (upperList ap) })
        | none =>
          match matchBleNamed stripped with
          | some (r, brand, model) =>
            let b := pyStrip brand
            let name :=
              if model.isEmpty then "[" ++ String.mk b ++ "]"
              else "[" ++ String.mk b ++ "] " ++ String.mk model
            some (.bleFound { rssi := r, name := name, mac := "" })
          | none =>
            match matchBleMac stripped with
            | some (r, mac) =>
              some (.bleFound { rssi := r, name := "",
                                mac := String.mk (upperList mac) })
            | none =>
              if searchScanStartedAp stripped then some (.scanStarted "ap")
              else if searchScanStartedBt stripped then
                some (.scanStarted "bluetooth")
              else if searchScanStartedSta stripped then
                some (.scanStarted "station")
              else if searchScanStopped stripped then some .scanStopped
              else some (.rawLine line)

/-- `SerialBridge._handle_line`, event part: parse one line and return the
event it emits, or `none` for the silent branches (blank line, beacon
info line). -/
def parseLine (line : String) : Option Ev :=
  if (pyStrip line.data).isEmpty then none
  else parseStripped line (pyStrip (lstripPrompt line.data))

/-- Bounded append of a `collections.deque(maxlen=n)`: push on the right,
evict the leftmost element when full. -/
def dequeAppend (maxlen : Nat) (l : List String) (x : String) : List String :=
  let l2 := l ++ [x]
  if l2.length ≤ maxlen then l2 else l2.drop (l2.length - maxlen)

/-- `SerialBridge._handle_line`, history part: every incoming line is
appended to the bounded `raw_lines` deque (capacity 500) before any
parsing happens, blank lines included. -/
def handleLineHist (hist : List String) (line : String) : List String :=
  dequeAppend 500 hist line

/-! ### Engine (`engine.py`)

Python `dict[str, int]` indices are modelled as insertion-ordered
association lists; `aset` replaces in place when the key exists and
appends otherwise, exactly like dict assignment. -/

/-- Dict lookup `d.get(k)` / `k in d` on an association list. -/
def alookup : List (String × Nat) → String → Option Nat
  | [], _ => none
  | (k, v) :: t, key => if k = key then some v else alookup t key

/-- Dict assignment `d[k] = v` on an association list. -/
def aset : List (String × Nat) → String → Nat → List (String × Nat)
  | [], key, v => [(key, v)]
  | (k, w) :: t, key, v =>
    if k = key then (key, v) :: t else (k, w) :: aset t key v

/-- `_ACTIVITY_LOG_MAX`. -/
def activityLogMax : Nat := 200

/-- The observable state of `MarauderEngine`.

File handles are modelled by a ledger: `openedCount` counts `open(...)`
calls made by `start_session` (handle `i` is the `i`-th open), and
`closedFiles` lists the handles on which `.close()` was called. Session
writes record `(handle, event type)` pairs; the JSON payload text is not
needed by any property and its shape is modelled separately for export.
`sent` records the strings passed to `SerialBridge.send_command`, and
`notified` the `event_type` arguments of `_notify` calls. Wall-clock
timestamps (activity-log times, session file names) are ambient
nondeterminism and are left out of the state. -/
structure EngineState where
  aps : List APFound
  stations : List StationFound
  ble_devices : List BLEDeviceFound
  apIndex : List (String × Nat)
  staIndex : List (String × Nat)
  bleIndex : List (String × Nat)
  activity_log : List String
  current_scan : Option String
  is_connected : Bool
  session_file : Option Nat
  openedCount : Nat
  closedFiles : List Nat
  writes : List (Nat × String)
  sent : List String
  notified : List String
deriving DecidableEq, Repr

/-- `MarauderEngine.__init__` state. -/
def initEngine : EngineState :=
  { aps := [], stations := [], ble_devices := []
    apIndex := [], staIndex := [], bleIndex := []
    activity_log := [], current_scan := none, is_connected := false
    session_file := none, openedCount := 0, closedFiles := []
    writes := [], sent := [], notified := [] }

/-- `MarauderEngine._log`. -/
def engLog (s : EngineState) (m : String) : EngineState :=
  { s with activity_log := dequeAppend activityLogMax s.activity_log m }

/-- `MarauderEngine._notify`. -/
def engNotify (s : EngineState) (t : String) : EngineState :=
  { s with notified := s.notified ++ [t] }

/-- `SerialBridge.send_command` as seen from the engine: the command
string is handed to the bridge (the trailing-newline append and the raw
write happen inside the bridge). -/
def engSend (s : EngineState) (cmd : String) : EngineState :=
  { s with sent := s.sent ++ [cmd] }

/-- `MarauderEngine._on_ap_found`. -/
def onApFound (s : EngineState) (e : APFound) : EngineState :=
  let s1 :=
    match alookup s.apIndex e.bssid with
    | some idx => { s with aps := s.aps.set idx e }
    | none =>
      { s with apIndex := aset s.apIndex e.bssid s.aps.length
               aps := s.aps ++ [e] }
  let msg := "Found AP: " ++ e.ssid ++ " ch" ++ toString e.channel
    ++ " " ++ toString e.rssi ++ "dBm"
  engNotify (engLog s1 msg) "activity"

/-- `MarauderEngine._on_station_found`. -/
def onStationFound (s : EngineState) (e : StationFound) : EngineState :=
  let s1 :=
    match alookup s.staIndex e.mac with
    | some idx => { s with stations := s.stations.set idx e }
    | none =>
      { s with staIndex := aset s.staIndex e.mac s.stations.length
               stations := s.stations ++ [e] }
  let msg := "Station: " ++ e.mac ++ " " ++ toString e.rssi ++ "dBm -> "
    ++ e.associated_bssid
  engNotify (engLog s1 msg) "activity"

/-- `MarauderEngine._on_ble_device_found`. The key is `event.mac` as-is:
the source does not special-case the empty string. -/
def onBleDeviceFound (s : EngineState) (e : BLEDeviceFound) : EngineState :=
  let s1 :=
    match alookup s.bleIndex e.mac with
    | some idx => { s with ble_devices := s.ble_devices.set idx e }
    | none =>
      { s with bleIndex := aset s.bleIndex e.mac s.ble_devices.length
               ble_devices := s.ble_devices ++ [e] }
  let name := if e.name = "" then e.mac else e.name
  let msg := "Device: " ++ name ++ " " ++ toString e.rssi ++ "dBm"
  engNotify (engLog s1 msg) "activity"

/-- `MarauderEngine._on_scan_started`. -/
def onScanStarted (s : EngineState) (scanType : String) : EngineState :=
  engLog { s with current_scan := some scanType }
    ("Scan started: " ++ scanType)

/-- `MarauderEngine._on_scan_stopped`. -/
def onScanStopped (s : EngineState) : EngineState :=
  let prev := match s.current_scan with | some p => p | none => "None"
  engLog { s with current_scan := none } ("Scan stopped (was: " ++ prev ++ ")")

/-- `MarauderEngine._on_raw_line`. -/
def onRawLine (s : EngineState) (_text : String) : EngineState :=
  engNotify s "raw_line"

/-- `MarauderEngine._on_disconnected`. -/
def onDisconnected (s : EngineState) : EngineState :=
  engLog { s with is_connected := false, current_scan := none }
    "Device disconnected"

/-- `MarauderEngine._record_event`: append one JSON record for the event
to the open session file, if any (here: a `(handle, event type)` pair). -/
def recordEvent (s : EngineState) (e : Ev) : EngineState :=
  match s.session_file with
  | none => s
  | some h => { s with writes := s.writes ++ [(h, evTypeName e)] }

/-- `MarauderEngine._handle_event`: dispatch, then record, then notify. -/
def handleEvent (s : EngineState) (e : Ev) : EngineState :=
  let s1 :=
    match e with
    | .apFound a => onApFound s a
    | .stationFound st => onStationFound s st
    | .bleFound b => onBleDeviceFound s b
    | .scanStarted t => onScanStarted s t
    | .scanStopped => onScanStopped s
    | .rawLine t => onRawLine s t
    | .disconnected _ => onDisconnected s
  engNotify (recordEvent s1 e) "update"

/-- `MarauderEngine.start_wifi_scan`. -/
def startWifiScan (s : EngineState) : EngineState :=
  engNotify (engLog { engSend s "scanap" with current_scan := some "wifi_ap" }
    "Requested WiFi AP scan") "update"

/-- `MarauderEngine.start_station_scan`. -/
def startStationScan (s : EngineState) : EngineState :=
  engNotify (engLog { engSend s "scansta" with current_scan := some "wifi_sta" }
    "Requested WiFi station scan") "update"

/-- `MarauderEngine.start_ble_scan`. -/
def startBleScan (s : EngineState) : EngineState :=
  engNotify (engLog { engSend s "sniffbt" with current_scan := some "ble" }
    "Requested BLE scan") "update"

/-- `MarauderEngine.stop_scan`: sends `stopscan`, logs and notifies. The
source does not touch `current_scan` here. -/
def stopScan (s : EngineState) : EngineState :=
  engNotify (engLog (engSend s "stopscan") "Requested scan stop") "update"

/-- `MarauderEngine.clear_results`. -/
def clearResults (s : EngineState) : EngineState :=
  engNotify (engLog
    { s with aps := [], stations := [], ble_devices := []
             apIndex := [], staIndex := [], bleIndex := [] }
    "Results cleared") "update"

/-- `MarauderEngine.attack_deauth`. The index is a Python `int`, so the
guard checks both `< 0` and `>= len(aps)`. -/
def attackDeauth (s : EngineState) (apIndex : Int) : EngineState :=
  if apIndex < 0 || apIndex ≥ (s.aps.length : Int) then
    engNotify (engLog s ("Invalid AP index: " ++ toString apIndex)) "update"
  else
    match s.aps.get? apIndex.toNat with
    | none => s
    | some ap =>
      engNotify (engLog
        { engSend (engSend s ("select -a " ++ toString apIndex))
            "attack -t deauth" with current_scan := some "attack_deauth" }
        ("Deauth attack on AP " ++ ap.ssid ++ " (" ++ ap.bssid ++ ")"))
        "update"

/-- `MarauderEngine.attack_beacon_flood`. -/
def attackBeaconFlood (s : EngineState) : EngineState :=
  engNotify (engLog { engSend s "attack -t beacon -r" with
    current_scan := some "attack_beacon" } "Beacon flood attack started")
    "update"

/-- `MarauderEngine.attack_rickroll`. -/
def attackRickroll (s : EngineState) : EngineState :=
  engNotify (engLog { engSend s "attack -t rickroll" with
    current_scan := some "attack_rickroll" } "Rickroll beacon attack started")
    "update"

/-- The fixed `valid_targets` set of `ble_spam`. -/
def validTargets : List String :=
  ["apple", "samsung", "google", "windows", "flipper", "all"]

/-- Rendering of the Python f-string
`f"Invalid BLE spam target: \x7btarget!r\x7d (valid: \x7bvalid_targets\x7d)"`.
`repr` of a plain identifier-like string is it wrapped in single quotes;
the set display is one fixed enumeration order (Python set order is
unspecified, and no property depends on that tail). -/
def invalidBleMsg (target : String) : String :=
  "Invalid BLE spam target: '" ++ target ++
  "' (valid: \x7b'apple', 'samsung', 'google', 'windows', 'flipper', 'all'\x7d)"

/-- `MarauderEngine.ble_spam`. -/
def bleSpam (s : EngineState) (target : String) : EngineState :=
  if target ∈ validTargets then
    engNotify (engLog { engSend s ("blespam -t " ++ target) with
      current_scan := some ("ble_spam_" ++ target) }
      ("BLE spam started (target=" ++ target ++ ")")) "update"
  else
    engNotify (engLog s (invalidBleMsg target)) "update"

/-- `MarauderEngine.start_session`: open a fresh file (handle
`openedCount`), make it the active session file, log and notify. The
source never closes a previously active `_session_file` here. -/
def startSession (s : EngineState) : EngineState :=
  let h := s.openedCount
  engNotify (engLog { s with session_file := some h, openedCount := h + 1 }
    "Session recording started") "update"

/-- `MarauderEngine.stop_session`: close the active session file, if any. -/
def stopSession (s : EngineState) : EngineState :=
  match s.session_file with
  | none => s
  | some h =>
    engNotify (engLog { s with session_file := none
                               closedFiles := s.closedFiles ++ [h] }
      "Session recording stopped") "update"

/-- Handles opened by `start_session` and not yet closed. -/
def openHandles (s : EngineState) : List Nat :=
  (List.range s.openedCount).filter (fun h => h ∉ s.closedFiles)

/-- One externally triggered engine operation. -/
inductive EngOp where
  | event (e : Ev)
  | wifiScan | stationScan | bleScan | stop | clear
  | deauth (i : Int) | beacon | rick | spam (t : String)
  | sessionStart | sessionStop
deriving DecidableEq, Repr

/-- Apply one operation. -/
def applyOp (s : EngineState) : EngOp → EngineState
  | .event e => handleEvent s e
  | .wifiScan => startWifiScan s
  | .stationScan => startStationScan s
  | .bleScan => startBleScan s
  | .stop => stopScan s
  | .clear => clearResults s
  | .deauth i => attackDeauth s i
  | .beacon => attackBeaconFlood s
  | .rick => attackRickroll s
  | .spam t => bleSpam s t
  | .sessionStart => startSession s
  | .sessionStop => stopSession s

/-- Run a sequence of operations. -/
def runOps (s : EngineState) (ops : List EngOp) : EngineState :=
  ops.foldl applyOp s

/-! ### Session CSV export (`MarauderEngine.export_session_csv`)

A session file is a sequence of JSON records (blank lines are skipped by
the reader loop before this model starts). Record values produced by
`_record_event` are strings and integers. -/

/-- A JSON scalar as it appears in a session record. -/
inductive JVal where
  | jstr (s : String)
  | jint (n : Int)
deriving DecidableEq, Repr

/-- One parsed JSON-line record: ordered field/value pairs. -/
def JRecord := List (String × JVal)

/-- Keys of one record. -/
def recordKeys (r : JRecord) : List String := r.map Prod.fst

/-- First-value lookup, as in a JSON object (keys are unique in practice). -/
def jlookup : JRecord → String → Option JVal
  | [], _ => none
  | (k, v) :: t, key => if k = key then some v else jlookup t key

/-- `fieldnames_set.update(record.keys())` over all records: the union of
all field names, as a duplicate-free list (Python's set is unordered; only
membership is ever used downstream). -/
def keysUnion (rs : List JRecord) : List String :=
  rs.foldl (fun acc r => acc ++ (recordKeys r).filter (fun k => k ∉ acc)) []

/-- The `priority` column list of `export_session_csv`. -/
def priorityCols : List String := ["timestamp", "event_type"]

/-- Python code-point string order, the order used by `sorted` on `str`. -/
def strLe (a b : String) : Prop := a ≤ b

instance : DecidableRel strLe := fun a b => inferInstanceAs (Decidable (a ≤ b))

/-- Column computation: `[f for f in priority if f in s]` followed by
`sorted(s - set(priority))`. -/
def exportFieldnames (rs : List JRecord) : List String :=
  let fset := keysUnion rs
  (priorityCols.filter (fun f => f ∈ fset)) ++
    List.insertionSort strLe (fset.filter (fun f => f ∉ priorityCols))

/-- `str(value)` as the csv module renders a cell. -/
def jvalToCell : JVal → String
  | .jstr s => s
  | .jint n => toString n

/-- `csv.DictWriter.writerow` with `restval=""` and `extrasaction="ignore"`:
one cell per fieldname, the record's value when present, else empty. -/
def rowCells (fns : List String) (r : JRecord) : List String :=
  fns.map (fun f => match jlookup r f with
    | some v => jvalToCell v
    | none => "")

/-- Minimal quoting of the default csv dialect: quote a cell iff it holds
a delimiter, quote char or line break, doubling inner quotes. -/
def csvQuoteCell (s : String) : String :=
  if s.data.any (fun c => c = ',' || c = '"' || c = '\r' || c = '\n') then
    "\"" ++ String.mk (s.data.foldr
      (fun c acc => if c = '"' then '"' :: '"' :: acc else c :: acc) []) ++ "\""
  else s

/-- One CSV line: comma-joined quoted cells plus the default `\r\n`. -/
def csvLine (cells : List String) : String :=
  String.intercalate "," (cells.map csvQuoteCell) ++ "\r\n"

/-- The full CSV text: header row, then one row per record. -/
def exportCsvText (rs : List JRecord) : String :=
  let fns := exportFieldnames rs
  csvLine fns ++ String.join ((rs.map (rowCells fns)).map csvLine)

/-- The data rows (cell matrix) of the export, one row per record. -/
def exportRows (rs : List JRecord) : List (List String) :=
  rs.map (rowCells (exportFieldnames rs))

/-- `pathlib.Path.with_suffix(".csv")`: replace the extension of the final
path component (the part from its last dot) by `.csv`; if the final
component has no dot, append `.csv`. -/
def withSuffixCsv (p : String) : String :=
  let rev := p.data.reverse
  let comp := rev.takeWhile (fun c => c ≠ '/')
  let stemRev :=
    if comp.any (fun c => c = '.') then
      (comp.dropWhile (fun c => c ≠ '.')).drop 1 ++ rev.drop comp.length
    else rev
  String.mk stemRev.reverse ++ ".csv"

/-- `export_session_csv` observable outcome: the path the CSV text is
written to (beside the source file) and the returned CSV text. -/
def exportSessionCsv (sessionPath : String) (rs : List JRecord) :
    String × String :=
  (withSuffixCsv sessionPath, exportCsvText rs)

/-! ### Port resolution and `connect` (`serial_bridge.py`) -/

/-- `_auto_detect_port`: sort the glob matches lexically, take the first. -/
def autoDetectPort (globResults : List String) : Option String :=
  (List.insertionSort strLe globResults).head?

/-- Python truthiness fallback `port or _auto_detect_port()`: both `None`
and the empty string select the auto-detected alternative. -/
def pyOr (port : Option String) (alt : Option String) : Option String :=
  match port with
  | none => alt
  | some s => if s = "" then alt else some s

/-- Observable outcome of `SerialBridge.connect`. -/
inductive ConnectOutcome where
  | alreadyRunning
  | noPort
  | openPort (path : String)
deriving DecidableEq, Repr

/-- `SerialBridge.connect`, up to the point where a device path is handed
to `serial.Serial`: warn-and-return when already running, raise
`RuntimeError` (`noPort`) when neither an explicit port nor auto-detection
yields a path, else open the resolved path. -/
def connectResolve (running : Bool) (port : Option String)
    (globResults : List String) : ConnectOutcome :=
  if running then .alreadyRunning
  else
    match pyOr port (autoDetectPort globResults) with
    | none => .noPort
    | some p => .openPort p

/-! ### Schematic access-point lines

Used to quantify over "every valid AP discovery line": the numeric fields
are arbitrary digit strings, the BSSID is an arbitrary colon-separated
hex-pair sequence, the SSID is arbitrary stripped text. -/

/-- A textual `-?\d+` token. -/
def intTok (neg : Bool) (ds : List Char) : List Char :=
  (if neg then ['-'] else []) ++ ds

/-- The `int(...)` value of an `intTok`. -/
def intTokVal (neg : Bool) (ds : List Char) : Int :=
  if neg then -(digitsVal ds : Int) else (digitsVal ds : Int)

/-- The 17 characters of a colon-separated MAC address. -/
def macChars (a1 b1 a2 b2 a3 b3 a4 b4 a5 b5 a6 b6 : Char) : List Char :=
  [a1, b1, ':', a2, b2, ':', a3, b3, ':', a4, b4, ':', a5, b5, ':', a6, b6]

/-- An access-point line in the BSSID-before-ESSID order the firmware
emits, e.g. `-58 Ch: 2 BSSID: 1c:3b:f3:7e:9e:94 ESSID: wifi_casa`. -/
def apLine (neg : Bool) (rds cds mac ssid : List Char) : List Char :=
  intTok neg rds ++ [' '] ++ "Ch:".data ++ [' '] ++ cds ++ [' '] ++
  "BSSID:".data ++ [' '] ++ mac ++ [' '] ++ "ESSID:".data ++ [' '] ++ ssid

/-- The same fields in the ESSID-before-BSSID textual ordering. -/
def apLineSsidFirst (neg : Bool) (rds cds mac ssid : List Char) : List Char :=
  intTok neg rds ++ [' '] ++ "Ch:".data ++ [' '] ++ cds ++ [' '] ++
  "ESSID:".data ++ [' '] ++ ssid ++ [' '] ++ "BSSID:".data ++ [' '] ++ mac

/-! ### Association-list facts -/

theorem alookup_aset_self (idx : List (String × Nat)) (k : String) (v : Nat) :
    alookup (aset idx k v) k = some v := by
  induction idx with
  | nil => simp [aset, alookup]
  | cons p t ih =>
    by_cases h : p.1 = k
    · simp [aset, h, alookup]
    · simp [aset, h, alookup, ih]

theorem alookup_aset_ne (idx : List (String × Nat)) (k k' : String) (v : Nat)
    (h : k' ≠ k) : alookup (aset idx k v) k' = alookup idx k' := by
  induction idx with
  | nil =>
    simp only [aset, alookup]
    rw [if_neg (Ne.symm h)]
  | cons p t ih =>
    obtain ⟨a, b⟩ := p
    by_cases hp : a = k
    · subst hp
      simp only [aset, alookup, if_pos rfl]
      rw [if_neg (Ne.symm h), if_neg (Ne.symm h)]
    · by_cases hp' : a = k'
      · subst hp'
        simp only [aset, alookup, if_neg hp]
        simp
      · simp [aset, hp, alookup, hp', ih]

theorem aset_of_alookup_none (idx : List (String × Nat)) (k : String) (v : Nat)
    (h : alookup idx k = none) : aset idx k v = idx ++ [(k, v)] := by
  induction idx with
  | nil => simp [aset]
  | cons p t ih =>
    obtain ⟨a, b⟩ := p
    by_cases hp : a = k
    · simp [alookup, hp] at h
    · simp [alookup, hp] at h
      simp [aset, hp, ih h]

theorem alookup_none_not_mem (idx : List (String × Nat)) (k : String)
    (h : alookup idx k = none) : k ∉ idx.map Prod.fst := by
  induction idx with
  | nil => simp
  | cons p t ih =>
    obtain ⟨a, b⟩ := p
    by_cases hp : a = k
    · simp [alookup, hp] at h
    · simp [alookup, hp] at h
      simp [ih h, Ne.symm hp]

theorem alookup_append_of_some (idx rest : List (String × Nat)) (k : String)
    (v : Nat) (h : alookup idx k = some v) :
    alookup (idx ++ rest) k = some v := by
  induction idx with
  | nil => simp [alookup] at h
  | cons p t ih =>
    by_cases hp : p.1 = k
    · simp [alookup, hp] at h ⊢
      exact h
    · simp [alookup, hp] at h ⊢
      exact ih h

theorem alookup_concat_of_none (idx : List (String × Nat)) (k k' : String)
    (v : Nat) (h : alookup idx k' = none) :
    alookup (idx ++ [(k, v)]) k' = if k = k' then some v else none := by
  induction idx with
  | nil => simp [alookup]
  | cons p t ih =>
    by_cases hp : p.1 = k'
    · simp [alookup, hp] at h
    · simp [alookup, hp] at h ⊢
      exact ih h

theorem alookup_mem (idx : List (String × Nat)) (k : String) (v : Nat)
    (h : alookup idx k = some v) : (k, v) ∈ idx := by
  induction idx with
  | nil => simp [alookup] at h
  | cons p t ih =>
    obtain ⟨a, b⟩ := p
    by_cases hp : a = k
    · simp [alookup, hp] at h
      subst hp
      subst h
      exact List.mem_cons_self _ _
    · simp [alookup, hp] at h
      exact List.mem_cons_of_mem _ (ih h)

/-! ### The index-consistency invariant -/

/-- Consistency of a dedup collection with its identity index: every index
entry points inside the list at an element carrying the indexed key, every
stored element's key maps back to the element's own position, and the
index holds no duplicate keys. -/
def IndexInv {α : Type} (key : α → String) (idx : List (String × Nat))
    (l : List α) : Prop :=
  (∀ p ∈ idx, ∃ x, l.get? p.2 = some x ∧ key x = p.1) ∧
  (∀ i x, l.get? i = some x → alookup idx (key x) = some i) ∧
  (idx.map Prod.fst).Nodup

/-- The common update shape of `_on_ap_found` / `_on_station_found` /
`_on_ble_device_found`: replace at the indexed position when the key is
known, else append and index the new position. -/
def dedupStep {α : Type} (key : α → String) (idx : List (String × Nat))
    (l : List α) (e : α) : List (String × Nat) × List α :=
  match alookup idx (key e) with
  | some i => (idx, l.set i e)
  | none => (aset idx (key e) l.length, l ++ [e])

theorem indexInv_nil {α : Type} (key : α → String) : IndexInv key [] [] := by
  refine ⟨by simp, by simp [alookup], by simp⟩

theorem indexInv_set {α : Type} (key : α → String) {idx : List (String × Nat)}
    {l : List α} {e : α} {i : Nat} (h : IndexInv key idx l)
    (hl : alookup idx (key e) = some i) : IndexInv key idx (l.set i e) := by
  obtain ⟨h1, h2, h3⟩ := h
  obtain ⟨x0, hx0, hkx0⟩ := h1 _ (alookup_mem _ _ _ hl)
  have hilt : i < l.length := by
    by_contra hge
    rw [List.get?_eq_none.2 (Nat.le_of_not_lt hge)] at hx0
    exact Option.noConfusion hx0
  refine ⟨?_, ?_, h3⟩
  · intro p hp
    by_cases hpi : p.2 = i
    · refine ⟨e, ?_, ?_⟩
      · rw [hpi, List.get?_set_eq, hx0]
        rfl
      · obtain ⟨y, hy, hky⟩ := h1 p hp
        rw [hpi] at hy
        rw [hy] at hx0
        cases hx0
        rw [← hky, hkx0]
    · obtain ⟨y, hy, hky⟩ := h1 p hp
      exact ⟨y, by rw [List.get?_set_ne _ _ (fun hh => hpi hh.symm), hy], hky⟩
  · intro j x hj
    by_cases hji : j = i
    · subst hji
      rw [List.get?_set_eq, hx0] at hj
      cases hj
      exact hl
    · rw [List.get?_set_ne _ _ (fun hh => hji hh.symm)] at hj
      exact h2 j x hj

theorem indexInv_append {α : Type} (key : α → String)
    {idx : List (String × Nat)} {l : List α} {e : α} (h : IndexInv key idx l)
    (hl : alookup idx (key e) = none) :
    IndexInv key (aset idx (key e) l.length) (l ++ [e]) := by
  obtain ⟨h1, h2, h3⟩ := h
  rw [aset_of_alookup_none _ _ _ hl]
  refine ⟨?_, ?_, ?_⟩
  · intro p hp
    rcases List.mem_append.1 hp with hp | hp
    · obtain ⟨y, hy, hky⟩ := h1 p hp
      have hlt : p.2 < l.length := by
        by_contra hge
        rw [List.get?_eq_none.2 (Nat.le_of_not_lt hge)] at hy
        exact Option.noConfusion hy
      exact ⟨y, by rw [List.get?_append hlt, hy], hky⟩
    · have hpe : p = (key e, l.length) := by simpa using hp
      subst hpe
      exact ⟨e, by simp [List.get?_concat_length], rfl⟩
  · intro j x hj
    by_cases hjl : j < l.length
    · rw [List.get?_append hjl] at hj
      exact alookup_append_of_some _ _ _ _ (h2 j x hj)
    · by_cases hje : j = l.length
      · subst hje
        rw [List.get?_concat_length] at hj
        cases hj
        rw [alookup_concat_of_none _ _ _ _ hl]
        simp
      · have : l.length + 1 ≤ j := by omega
        rw [List.get?_eq_none.2 (by simpa using this)] at hj
        exact Option.noConfusion hj
  · rw [List.map_append]
    refine List.Nodup.append h3 (by simp) ?_
    intro a ha hb
    have : a = key e := by simpa using hb
    subst this
    exact alookup_none_not_mem _ _ hl ha

theorem indexInv_dedupStep {α : Type} (key : α → String)
    {idx : List (String × Nat)} {l : List α} (e : α) (h : IndexInv key idx l) :
    IndexInv key (dedupStep key idx l e).1 (dedupStep key idx l e).2 := by
  unfold dedupStep
  cases hl : alookup idx (key e) with
  | some i => exact indexInv_set key h hl
  | none => exact indexInv_append key h hl

theorem pairwise_of_indexInv {α : Type} (key : α → String)
    {idx : List (String × Nat)} {l : List α} (h : IndexInv key idx l) :
    l.Pairwise (fun a b => key a ≠ key b) := by
  obtain ⟨_, h2, _⟩ := h
  rw [List.pairwise_iff_get]
  intro i j hij hkey
  have hi := h2 i (l.get i) (List.get?_eq_get i.isLt)
  have hj := h2 j (l.get j) (List.get?_eq_get j.isLt)
  rw [hkey, hj] at hi
  have : (j : Nat) = (i : Nat) := by simpa using hi
  omega

/-- The engine-wide invariant: all three dedup collections are consistent
with their identity indices. -/
def EngineInv (s : EngineState) : Prop :=
  IndexInv APFound.bssid s.apIndex s.aps ∧
  IndexInv StationFound.mac s.staIndex s.stations ∧
  IndexInv BLEDeviceFound.mac s.bleIndex s.ble_devices

theorem engineInv_init : EngineInv initEngine :=
  ⟨indexInv_nil _, indexInv_nil _, indexInv_nil _⟩

theorem dedupStep_lookup_self {α : Type} (key : α → String)
    (idx : List (String × Nat)) (l : List α) (e : α) :
    ∃ i, alookup (dedupStep key idx l e).1 (key e) = some i := by
  unfold dedupStep
  cases hl : alookup idx (key e) with
  | some i => exact ⟨i, hl⟩
  | none => exact ⟨l.length, alookup_aset_self _ _ _⟩

theorem dedupStep_eq_set {α : Type} (key : α → String)
    {idx : List (String × Nat)} {l : List α} {e : α} {i : Nat}
    (h : alookup idx (key e) = some i) :
    dedupStep key idx l e = (idx, l.set i e) := by
  unfold dedupStep
  rw [h]

theorem dedupStep_second {α : Type} (key : α → String)
    (idx : List (String × Nat)) (l : List α) (e1 e2 : α)
    (h : IndexInv key idx l) (hk : key e2 = key e1) :
    (dedupStep key (dedupStep key idx l e1).1 (dedupStep key idx l e1).2
        e2).2.length = (dedupStep key idx l e1).2.length ∧
    (dedupStep key (dedupStep key idx l e1).1 (dedupStep key idx l e1).2
        e2).1 = (dedupStep key idx l e1).1 ∧
    ∃ i, alookup (dedupStep key (dedupStep key idx l e1).1
        (dedupStep key idx l e1).2 e2).1 (key e2) = some i ∧
      (dedupStep key (dedupStep key idx l e1).1 (dedupStep key idx l e1).2
        e2).2.get? i = some e2 := by
  have inv1 := indexInv_dedupStep key e1 h
  obtain ⟨i, hi⟩ := dedupStep_lookup_self key idx l e1
  have hi2 : alookup (dedupStep key idx l e1).1 (key e2) = some i := by
    rw [hk]; exact hi
  obtain ⟨x, hx, -⟩ := inv1.1 _ (alookup_mem _ _ _ hi2)
  have hx' : (dedupStep key idx l e1).2.get? i = some x := hx
  rw [dedupStep_eq_set key hi2]
  refine ⟨by simp, rfl, i, hi2, ?_⟩
  rw [List.get?_set_eq, hx']
  rfl

/-! ### Projections of the engine handlers -/

theorem onApFound_proj (s : EngineState) (e : APFound) :
    (onApFound s e).apIndex = (dedupStep APFound.bssid s.apIndex s.aps e).1 ∧
    (onApFound s e).aps = (dedupStep APFound.bssid s.apIndex s.aps e).2 ∧
    (onApFound s e).staIndex = s.staIndex ∧
    (onApFound s e).stations = s.stations ∧
    (onApFound s e).bleIndex = s.bleIndex ∧
    (onApFound s e).ble_devices = s.ble_devices ∧
    (onApFound s e).session_file = s.session_file ∧
    (onApFound s e).openedCount = s.openedCount ∧
    (onApFound s e).closedFiles = s.closedFiles := by
  unfold onApFound dedupStep engNotify engLog
  cases alookup s.apIndex e.bssid <;>
    exact ⟨rfl, rfl, rfl, rfl, rfl, rfl, rfl, rfl, rfl⟩

theorem onStationFound_proj (s : EngineState) (e : StationFound) :
    (onStationFound s e).staIndex =
      (dedupStep StationFound.mac s.staIndex s.stations e).1 ∧
    (onStationFound s e).stations =
      (dedupStep StationFound.mac s.staIndex s.stations e).2 ∧
    (onStationFound s e).apIndex = s.apIndex ∧
    (onStationFound s e).aps = s.aps ∧
    (onStationFound s e).bleIndex = s.bleIndex ∧
    (onStationFound s e).ble_devices = s.ble_devices ∧
    (onStationFound s e).session_file = s.session_file ∧
    (onStationFound s e).openedCount = s.openedCount ∧
    (onStationFound s e).closedFiles = s.closedFiles := by
  unfold onStationFound dedupStep engNotify engLog
  cases alookup s.staIndex e.mac <;>
    exact ⟨rfl, rfl, rfl, rfl, rfl, rfl, rfl, rfl, rfl⟩

theorem onBleDeviceFound_proj (s : EngineState) (e : BLEDeviceFound) :
    (onBleDeviceFound s e).bleIndex =
      (dedupStep BLEDeviceFound.mac s.bleIndex s.ble_devices e).1 ∧
    (onBleDeviceFound s e).ble_devices =
      (dedupStep BLEDeviceFound.mac s.bleIndex s.ble_devices e).2 ∧
    (onBleDeviceFound s e).apIndex = s.apIndex ∧
    (onBleDeviceFound s e).aps = s.aps ∧
    (onBleDeviceFound s e).staIndex = s.staIndex ∧
    (onBleDeviceFound s e).stations = s.stations ∧
    (onBleDeviceFound s e).session_file = s.session_file ∧
    (onBleDeviceFound s e).openedCount = s.openedCount ∧
    (onBleDeviceFound s e).closedFiles = s.closedFiles := by
  unfold onBleDeviceFound dedupStep engNotify engLog
  cases alookup s.bleIndex e.mac <;>
    exact ⟨rfl, rfl, rfl, rfl, rfl, rfl, rfl, rfl, rfl⟩

theorem recordEvent_proj (s : EngineState) (e : Ev) :
    (recordEvent s e).apIndex = s.apIndex ∧ (recordEvent s e).aps = s.aps ∧
    (recordEvent s e).staIndex = s.staIndex ∧
    (recordEvent s e).stations = s.stations ∧
    (recordEvent s e).bleIndex = s.bleIndex ∧
    (recordEvent s e).ble_devices = s.ble_devices ∧
    (recordEvent s e).current_scan = s.current_scan ∧
    (recordEvent s e).session_file = s.session_file ∧
    (recordEvent s e).openedCount = s.openedCount ∧
    (recordEvent s e).closedFiles = s.closedFiles := by
  cases h : s.session_file <;> simp [recordEvent, h]

/-- Transfer of the engine invariant along equal collection fields. -/
theorem engineInv_of_eq {s s' : EngineState} (h : EngineInv s)
    (h1 : s'.apIndex = s.apIndex) (h2 : s'.aps = s.aps)
    (h3 : s'.staIndex = s.staIndex) (h4 : s'.stations = s.stations)
    (h5 : s'.bleIndex = s.bleIndex) (h6 : s'.ble_devices = s.ble_devices) :
    EngineInv s' := by
  unfold EngineInv
  rw [h1, h2, h3, h4, h5, h6]
  exact h

theorem engineInv_handleEvent (s : EngineState) (e : Ev) (h : EngineInv s) :
    EngineInv (handleEvent s e) := by
  unfold handleEvent engNotify
  cases e with
  | apFound a =>
    obtain ⟨p1, p2, p3, p4, p5, p6, -, -, -⟩ := onApFound_proj s a
    obtain ⟨q1, q2, q3, q4, q5, q6, -⟩ := recordEvent_proj (onApFound s a)
      (.apFound a)
    refine engineInv_of_eq (s := onApFound s a) ?_
      q1 q2 q3 q4 q5 q6
    exact ⟨by rw [p1, p2]; exact indexInv_dedupStep _ a h.1,
      by rw [p3, p4]; exact h.2.1, by rw [p5, p6]; exact h.2.2⟩
  | stationFound a =>
    obtain ⟨p1, p2, p3, p4, p5, p6, -, -, -⟩ := onStationFound_proj s a
    obtain ⟨q1, q2, q3, q4, q5, q6, -⟩ := recordEvent_proj (onStationFound s a)
      (.stationFound a)
    refine engineInv_of_eq (s := onStationFound s a) ?_ q1 q2 q3 q4 q5 q6
    exact ⟨by rw [p3, p4]; exact h.1,
      by rw [p1, p2]; exact indexInv_dedupStep _ a h.2.1,
      by rw [p5, p6]; exact h.2.2⟩
  | bleFound a =>
    obtain ⟨p1, p2, p3, p4, p5, p6, -, -, -⟩ := onBleDeviceFound_proj s a
    obtain ⟨q1, q2, q3, q4, q5, q6, -⟩ :=
      recordEvent_proj (onBleDeviceFound s a) (.bleFound a)
    refine engineInv_of_eq (s := onBleDeviceFound s a) ?_ q1 q2 q3 q4 q5 q6
    exact ⟨by rw [p3, p4]; exact h.1, by rw [p5, p6]; exact h.2.1,
      by rw [p1, p2]; exact indexInv_dedupStep _ a h.2.2⟩
  | scanStarted t =>
    obtain ⟨q1, q2, q3, q4, q5, q6, -⟩ := recordEvent_proj (onScanStarted s t)
      (.scanStarted t)
    exact engineInv_of_eq (s := s) h (by rw [q1]; rfl) (by rw [q2]; rfl)
      (by rw [q3]; rfl) (by rw [q4]; rfl) (by rw [q5]; rfl) (by rw [q6]; rfl)
  | scanStopped =>
    obtain ⟨q1, q2, q3, q4, q5, q6, -⟩ := recordEvent_proj (onScanStopped s)
      .scanStopped
    exact engineInv_of_eq (s := s) h (by rw [q1]; rfl) (by rw [q2]; rfl)
      (by rw [q3]; rfl) (by rw [q4]; rfl) (by rw [q5]; rfl) (by rw [q6]; rfl)
  | disconnected r =>
    obtain ⟨q1, q2, q3, q4, q5, q6, -⟩ := recordEvent_proj (onDisconnected s)
      (.disconnected r)
    exact engineInv_of_eq (s := s) h (by rw [q1]; rfl) (by rw [q2]; rfl)
      (by rw [q3]; rfl) (by rw [q4]; rfl) (by rw [q5]; rfl) (by rw [q6]; rfl)
  | rawLine t =>
    obtain ⟨q1, q2, q3, q4, q5, q6, -⟩ := recordEvent_proj (onRawLine s t)
      (.rawLine t)
    exact engineInv_of_eq (s := s) h (by rw [q1]; rfl) (by rw [q2]; rfl)
      (by rw [q3]; rfl) (by rw [q4]; rfl) (by rw [q5]; rfl) (by rw [q6]; rfl)

theorem engineInv_applyOp (s : EngineState) (op : EngOp) (h : EngineInv s) :
    EngineInv (applyOp s op) := by
  cases op with
  | event e => exact engineInv_handleEvent s e h
  | wifiScan => exact engineInv_of_eq h rfl rfl rfl rfl rfl rfl
  | stationScan => exact engineInv_of_eq h rfl rfl rfl rfl rfl rfl
  | bleScan => exact engineInv_of_eq h rfl rfl rfl rfl rfl rfl
  | stop => exact engineInv_of_eq h rfl rfl rfl rfl rfl rfl
  | clear =>
    exact ⟨indexInv_nil _, indexInv_nil _, indexInv_nil _⟩
  | deauth i =>
    show EngineInv (attackDeauth s i)
    unfold attackDeauth
    split
    · exact engineInv_of_eq h rfl rfl rfl rfl rfl rfl
    · split
      · exact h
      · exact engineInv_of_eq h rfl rfl rfl rfl rfl rfl
  | beacon => exact engineInv_of_eq h rfl rfl rfl rfl rfl rfl
  | rick => exact engineInv_of_eq h rfl rfl rfl rfl rfl rfl
  | spam t =>
    show EngineInv (bleSpam s t)
    unfold bleSpam
    split
    · exact engineInv_of_eq h rfl rfl rfl rfl rfl rfl
    · exact engineInv_of_eq h rfl rfl rfl rfl rfl rfl
  | sessionStart => exact engineInv_of_eq h rfl rfl rfl rfl rfl rfl
  | sessionStop =>
    show EngineInv (stopSession s)
    unfold stopSession
    split
    · exact h
    · exact engineInv_of_eq h rfl rfl rfl rfl rfl rfl

theorem handleEvent_files (s : EngineState) (e : Ev) :
    (handleEvent s e).session_file = s.session_file ∧
    (handleEvent s e).openedCount = s.openedCount ∧
    (handleEvent s e).closedFiles = s.closedFiles := by
  cases e with
  | apFound a =>
    obtain ⟨-, -, -, -, -, -, f1, f2, f3⟩ := onApFound_proj s a
    obtain ⟨-, -, -, -, -, -, -, q8, q9, q10⟩ :=
      recordEvent_proj (onApFound s a) (Ev.apFound a)
    simp only [handleEvent, engNotify]
    exact ⟨q8.trans f1, q9.trans f2, q10.trans f3⟩
  | stationFound a =>
    obtain ⟨-, -, -, -, -, -, f1, f2, f3⟩ := onStationFound_proj s a
    obtain ⟨-, -, -, -, -, -, -, q8, q9, q10⟩ :=
      recordEvent_proj (onStationFound s a) (Ev.stationFound a)
    simp only [handleEvent, engNotify]
    exact ⟨q8.trans f1, q9.trans f2, q10.trans f3⟩
  | bleFound a =>
    obtain ⟨-, -, -, -, -, -, f1, f2, f3⟩ := onBleDeviceFound_proj s a
    obtain ⟨-, -, -, -, -, -, -, q8, q9, q10⟩ :=
      recordEvent_proj (onBleDeviceFound s a) (Ev.bleFound a)
    simp only [handleEvent, engNotify]
    exact ⟨q8.trans f1, q9.trans f2, q10.trans f3⟩
  | scanStarted t =>
    obtain ⟨-, -, -, -, -, -, -, q8, q9, q10⟩ :=
      recordEvent_proj (onScanStarted s t) (Ev.scanStarted t)
    simp only [handleEvent, engNotify]
    exact ⟨q8.trans rfl, q9.trans rfl, q10.trans rfl⟩
  | scanStopped =>
    obtain ⟨-, -, -, -, -, -, -, q8, q9, q10⟩ :=
      recordEvent_proj (onScanStopped s) Ev.scanStopped
    simp only [handleEvent, engNotify]
    exact ⟨q8.trans rfl, q9.trans rfl, q10.trans rfl⟩
  | disconnected r =>
    obtain ⟨-, -, -, -, -, -, -, q8, q9, q10⟩ :=
      recordEvent_proj (onDisconnected s) (Ev.disconnected r)
    simp only [handleEvent, engNotify]
    exact ⟨q8.trans rfl, q9.trans rfl, q10.trans rfl⟩
  | rawLine t =>
    obtain ⟨-, -, -, -, -, -, -, q8, q9, q10⟩ :=
      recordEvent_proj (onRawLine s t) (Ev.rawLine t)
    simp only [handleEvent, engNotify]
    exact ⟨q8.trans rfl, q9.trans rfl, q10.trans rfl⟩

/-! ### Session-handle ledger facts -/

/-- A file handle that is open but no longer the active recording target. -/
def LeakedOpen (s : EngineState) (h : Nat) : Prop :=
  h ∉ s.closedFiles ∧ s.session_file ≠ some h ∧ h < s.openedCount

theorem leakedOpen_applyOp (s : EngineState) (op : EngOp) (h : Nat)
    (hl : LeakedOpen s h) : LeakedOpen (applyOp s op) h := by
  obtain ⟨hc, hs, ho⟩ := hl
  cases op with
  | event e =>
    obtain ⟨f1, f2, f3⟩ := handleEvent_files s e
    exact ⟨by rw [show (applyOp s (.event e)).closedFiles =
        (handleEvent s e).closedFiles from rfl, f3]; exact hc,
      by rw [show (applyOp s (.event e)).session_file =
        (handleEvent s e).session_file from rfl, f1]; exact hs,
      by rw [show (applyOp s (.event e)).openedCount =
        (handleEvent s e).openedCount from rfl, f2]; exact ho⟩
  | wifiScan => exact ⟨hc, hs, ho⟩
  | stationScan => exact ⟨hc, hs, ho⟩
  | bleScan => exact ⟨hc, hs, ho⟩
  | stop => exact ⟨hc, hs, ho⟩
  | clear => exact ⟨hc, hs, ho⟩
  | deauth i =>
    show LeakedOpen (attackDeauth s i) h
    unfold attackDeauth
    split
    · exact ⟨hc, hs, ho⟩
    · split
      · exact ⟨hc, hs, ho⟩
      · exact ⟨hc, hs, ho⟩
  | beacon => exact ⟨hc, hs, ho⟩
  | rick => exact ⟨hc, hs, ho⟩
  | spam t =>
    show LeakedOpen (bleSpam s t) h
    unfold bleSpam
    split
    · exact ⟨hc, hs, ho⟩
    · exact ⟨hc, hs, ho⟩
  | sessionStart =>
    refine ⟨hc, ?_, by simpa [applyOp, startSession, engNotify, engLog]
      using Nat.lt_succ_of_lt ho⟩
    simp only [applyOp, startSession, engNotify, engLog]
    intro hcontra
    have : s.openedCount = h := by simpa using hcontra
    omega
  | sessionStop =>
    show LeakedOpen (stopSession s) h
    unfold stopSession
    cases hsf : s.session_file with
    | none => exact ⟨hc, hs, ho⟩
    | some hdl =>
      have hne : hdl ≠ h := by
        intro hh
        rw [hh] at hsf
        exact hs hsf
      refine ⟨?_, by simp [engNotify, engLog], ho⟩
      simp only [engNotify, engLog]
      simp [hc, Ne.symm hne]

theorem leakedOpen_runOps (s : EngineState) (ops : List EngOp) (h : Nat)
    (hl : LeakedOpen s h) : LeakedOpen (runOps s ops) h := by
  induction ops generalizing s with
  | nil => exact hl
  | cons op t ih => exact ih _ (leakedOpen_applyOp s op h hl)

theorem mem_openHandles (s : EngineState) (h : Nat) :
    h ∈ openHandles s ↔ h < s.openedCount ∧ h ∉ s.closedFiles := by
  unfold openHandles
  simp [List.mem_filter]

/-! ### Character-class facts -/

theorem digit_toLower (c : Char) (h : c.isDigit = true) : c.toLower = c := by
  simp only [Char.isDigit, Bool.and_eq_true, decide_eq_true_eq] at h
  have h57 : c.toNat ≤ 57 := h.2
  show (let n := c.toNat; if n ≥ 65 ∧ n ≤ 90 then Char.ofNat (n + 32) else c)
    = c
  simp only []
  rw [if_neg]
  intro hc
  omega

theorem digit_not_ws (c : Char) (h : c.isDigit = true) : isPyWs c = false := by
  cases hw : isPyWs c
  · rfl
  · exfalso
    unfold isPyWs at hw
    simp only [Bool.or_eq_true, decide_eq_true_eq] at hw
    rcases hw with ((((h1 | h1) | h1) | h1) | h1) | h1 <;> subst h1 <;>
      exact absurd h (by decide)

theorem hex_not_ws (c : Char) (h : isHexC c = true) : isPyWs c = false := by
  cases hw : isPyWs c
  · rfl
  · exfalso
    unfold isPyWs at hw
    simp only [Bool.or_eq_true, decide_eq_true_eq] at hw
    rcases hw with ((((h1 | h1) | h1) | h1) | h1) | h1 <;> subst h1 <;>
      exact absurd h (by decide)

theorem digit_not_prompt (c : Char) (h : c.isDigit = true) :
    (c = '>' || c = ' ') = false := by
  cases hw : (c = '>' || c = ' ')
  · rfl
  · exfalso
    simp only [Bool.or_eq_true, decide_eq_true_eq] at hw
    rcases hw with h1 | h1 <;> subst h1 <;> exact absurd h (by decide)

theorem digit_ne_of (c d : Char) (h : c.isDigit = true)
    (hd : d.isDigit = false) : ¬c = d := by
  intro h1
  subst h1
  rw [h] at hd
  exact Bool.noConfusion hd

/-! ### takeWhile / dropWhile boundary facts -/

theorem takeWhile_all {p : Char → Bool} (l : List Char)
    (h : ∀ c ∈ l, p c = true) : l.takeWhile p = l := by
  induction l with
  | nil => rfl
  | cons a t ih =>
    rw [List.takeWhile_cons, if_pos (h a (List.mem_cons_self a t)),
      ih (fun c hc => h c (List.mem_cons_of_mem a hc))]

theorem dropWhile_all {p : Char → Bool} (l : List Char)
    (h : ∀ c ∈ l, p c = true) : l.dropWhile p = [] := by
  induction l with
  | nil => rfl
  | cons a t ih =>
    rw [List.dropWhile_cons, if_pos (h a (List.mem_cons_self a t))]
    exact ih (fun c hc => h c (List.mem_cons_of_mem a hc))

theorem takeWhile_stop {p : Char → Bool} (rest : List Char)
    (h : ∀ c, rest.head? = some c → p c = false) : rest.takeWhile p = [] := by
  cases rest with
  | nil => rfl
  | cons a t => rw [List.takeWhile_cons, if_neg (by simp [h a rfl])]

theorem dropWhile_stop {p : Char → Bool} (rest : List Char)
    (h : ∀ c, rest.head? = some c → p c = false) : rest.dropWhile p = rest := by
  cases rest with
  | nil => rfl
  | cons a t => rw [List.dropWhile_cons, if_neg (by simp [h a rfl])]

theorem takeWhile_append_stop {p : Char → Bool} (ds rest : List Char)
    (hall : ∀ c ∈ ds, p c = true)
    (hrest : ∀ c, rest.head? = some c → p c = false) :
    (ds ++ rest).takeWhile p = ds := by
  rw [List.takeWhile_append, if_pos (by rw [takeWhile_all ds hall]),
    takeWhile_stop rest hrest, List.append_nil]

theorem dropWhile_append_stop {p : Char → Bool} (ds rest : List Char)
    (hall : ∀ c ∈ ds, p c = true)
    (hrest : ∀ c, rest.head? = some c → p c = false) :
    (ds ++ rest).dropWhile p = rest := by
  rw [List.dropWhile_append, if_pos (by rw [dropWhile_all ds hall]; rfl),
    dropWhile_stop rest hrest]

/-! ### Parser-combinator computation rules on built input -/

theorem takeDigits1_built (ds rest : List Char) (h1 : ds ≠ [])
    (h2 : ∀ c ∈ ds, c.isDigit = true)
    (h3 : ∀ c, rest.head? = some c → c.isDigit = false) :
    takeDigits1 (ds ++ rest) = some (ds, rest) := by
  unfold takeDigits1
  rw [takeWhile_append_stop ds rest h2 h3, dropWhile_append_stop ds rest h2 h3,
    if_neg (by simpa using h1)]

theorem parseIntTok_built (neg : Bool) (ds rest : List Char) (h1 : ds ≠ [])
    (h2 : ∀ c ∈ ds, c.isDigit = true)
    (h3 : ∀ c, rest.head? = some c → c.isDigit = false) :
    parseIntTok (intTok neg ds ++ rest) = some (intTokVal neg ds, rest) := by
  cases neg with
  | true =>
    show parseIntTok ('-' :: (ds ++ rest)) = _
    unfold parseIntTok
    dsimp only
    rw [if_pos rfl, takeDigits1_built ds rest h1 h2 h3]
    rfl
  | false =>
    cases ds with
    | nil => exact absurd rfl h1
    | cons c t =>
      show parseIntTok (c :: (t ++ rest)) = _
      unfold parseIntTok
      dsimp only
      rw [if_neg (digit_ne_of c '-' (h2 c (List.mem_cons_self c t)) (by decide)),
        show c :: (t ++ rest) = (c :: t) ++ rest from rfl,
        takeDigits1_built (c :: t) rest h1 h2 h3]
      rfl

theorem skipWs_cons_neg (c : Char) (t : List Char) (h : isPyWs c = false) :
    skipWs (c :: t) = c :: t := by
  unfold skipWs
  rw [List.dropWhile_cons, if_neg (by simp [h])]

theorem expectWs1_space (t : List Char) : expectWs1 (' ' :: t) = some (skipWs t) := by
  unfold expectWs1 skipWs
  dsimp only
  rw [if_pos (by decide)]

theorem expectLit_append (lit rest : List Char) :
    expectLit lit (lit ++ rest) = some rest := by
  induction lit with
  | nil => rfl
  | cons a t ih =>
    show expectLit (a :: t) (a :: (t ++ rest)) = some rest
    unfold expectLit
    rw [if_pos rfl]
    exact ih

theorem parseMac_built (a1 b1 a2 b2 a3 b3 a4 b4 a5 b5 a6 b6 : Char)
    (rest : List Char)
    (h1 : isHexC a1 = true) (h2 : isHexC b1 = true)
    (h3 : isHexC a2 = true) (h4 : isHexC b2 = true)
    (h5 : isHexC a3 = true) (h6 : isHexC b3 = true)
    (h7 : isHexC a4 = true) (h8 : isHexC b4 = true)
    (h9 : isHexC a5 = true) (h10 : isHexC b5 = true)
    (h11 : isHexC a6 = true) (h12 : isHexC b6 = true) :
    parseMac (macChars a1 b1 a2 b2 a3 b3 a4 b4 a5 b5 a6 b6 ++ rest) =
      some (macChars a1 b1 a2 b2 a3 b3 a4 b4 a5 b5 a6 b6, rest) := by
  simp [macChars, parseMac, parseHexPair, parseColonPair, h1, h2, h3, h4, h5,
    h6, h7, h8, h9, h10, h11, h12]

/-! ### Line-level parse computations for schematic AP lines -/

theorem skipWs_space (X : List Char) : skipWs (' ' :: X) = skipWs X := by
  unfold skipWs
  rw [List.dropWhile_cons, if_pos (by decide)]

theorem skipWs_stop_digits (ds R : List Char) (hne : ds ≠ [])
    (hall : ∀ c ∈ ds, c.isDigit = true) : skipWs (ds ++ R) = ds ++ R := by
  refine dropWhile_stop _ ?_
  intro c hc
  cases ds with
  | nil => exact absurd rfl hne
  | cons a t =>
    simp only [List.cons_append, List.head?_cons] at hc
    injection hc with h
    subst h
    exact digit_not_ws a (hall a (List.mem_cons_self a t))

theorem skipWs_stop_head (m R : List Char) (hne : m ≠ [])
    (hh : ∀ c, m.head? = some c → isPyWs c = false) :
    skipWs (m ++ R) = m ++ R := by
  refine dropWhile_stop _ ?_
  intro c hc
  cases m with
  | nil => exact absurd rfl hne
  | cons a t =>
    simp only [List.cons_append, List.head?_cons] at hc
    injection hc with h
    subst h
    exact hh a rfl

theorem expectLit_Ch (s : List Char) :
    expectLit "Ch:".data ('C' :: 'h' :: ':' :: s) = some s :=
  expectLit_append "Ch:".data s

theorem expectLit_BSSID (s : List Char) :
    expectLit "BSSID:".data ('B' :: 'S' :: 'S' :: 'I' :: 'D' :: ':' :: s) = some s :=
  expectLit_append "BSSID:".data s

theorem expectLit_ESSID (s : List Char) :
    expectLit "ESSID:".data ('E' :: 'S' :: 'S' :: 'I' :: 'D' :: ':' :: s) = some s :=
  expectLit_append "ESSID:".data s

theorem expectLit_BSSID_E (s : List Char) :
    expectLit "BSSID:".data ('E' :: s) = none := by
  show expectLit ('B' :: "SSID:".data) ('E' :: s) = none
  unfold expectLit
  rw [if_neg (by decide)]

theorem matchAp_built (neg : Bool) (rds cds mac tail ssid : List Char)
    (hr : rds ≠ []) (hrd : ∀ c ∈ rds, c.isDigit = true)
    (hcne : cds ≠ []) (hcd : ∀ c ∈ cds, c.isDigit = true)
    (hmne : mac ≠ [])
    (hmac : ∀ rest, parseMac (mac ++ rest) = some (mac, rest))
    (hmh : ∀ c, mac.head? = some c → isPyWs c = false)
    (htail : skipWs tail = ssid) (hsR : pyRStrip ssid = ssid) :
    matchAp (intTok neg rds ++ [' '] ++ "Ch:".data ++ [' '] ++ cds ++ [' '] ++
      "BSSID:".data ++ [' '] ++ mac ++ [' '] ++ "ESSID:".data ++ tail) =
      some (intTokVal neg rds, digitsVal cds, mac, ssid) := by
  simp only [List.append_assoc]
  unfold matchAp
  rw [parseIntTok_built neg rds _ hr hrd (by intro c hc; cases hc; decide)]
  simp only [List.cons_append, List.nil_append, Option.pure_def,
    Option.bind_eq_bind, Option.some_bind]
  rw [expectWs1_space, skipWs_cons_neg 'C' _ (by decide)]
  simp only [Option.some_bind]
  rw [expectLit_Ch]
  simp only [Option.some_bind]
  rw [skipWs_space, skipWs_stop_digits cds _ hcne hcd,
    takeDigits1_built cds _ hcne hcd (by intro c hc; cases hc; decide)]
  simp only [Option.some_bind]
  rw [expectWs1_space, skipWs_cons_neg 'B' _ (by decide)]
  simp only [Option.some_bind]
  rw [expectLit_BSSID]
  simp only [Option.some_bind]
  rw [skipWs_space, skipWs_stop_head mac _ hmne hmh, hmac]
  simp only [Option.some_bind]
  rw [expectWs1_space, skipWs_cons_neg 'E' _ (by decide)]
  simp only [Option.some_bind]
  rw [expectLit_ESSID]
  simp only [Option.some_bind]
  rw [htail, hsR]

theorem matchAp_E_none (neg : Bool) (rds cds rest : List Char)
    (hr : rds ≠ []) (hrd : ∀ c ∈ rds, c.isDigit = true)
    (hcne : cds ≠ []) (hcd : ∀ c ∈ cds, c.isDigit = true) :
    matchAp (intTok neg rds ++ [' '] ++ "Ch:".data ++ [' '] ++ cds ++ [' '] ++
      ('E' :: rest)) = none := by
  simp only [List.append_assoc]
  unfold matchAp
  rw [parseIntTok_built neg rds _ hr hrd (by intro c hc; cases hc; decide)]
  simp only [List.cons_append, List.nil_append, Option.pure_def,
    Option.bind_eq_bind, Option.some_bind]
  rw [expectWs1_space, skipWs_cons_neg 'C' _ (by decide)]
  simp only [Option.some_bind]
  rw [expectLit_Ch]
  simp only [Option.some_bind]
  rw [skipWs_space, skipWs_stop_digits cds _ hcne hcd,
    takeDigits1_built cds _ hcne hcd (by intro c hc; cases hc; decide)]
  simp only [Option.some_bind]
  rw [expectWs1_space, skipWs_cons_neg 'E' _ (by decide)]
  simp only [Option.some_bind]
  rw [expectLit_BSSID_E]
  simp only [Option.none_bind]

theorem parseLine_ap (line : String)
    (hblank : (pyStrip line.data).isEmpty = false)
    (hbeacon : matchBeacon (pyStrip (lstripPrompt line.data)) = false)
    (r : Int) (ch : Nat) (mac essid : List Char)
    (h : matchAp (pyStrip (lstripPrompt line.data)) = some (r, ch, mac, essid)) :
    parseLine line =
      some (Ev.apFound
        { ssid := String.mk essid, bssid := String.mk (upperList mac),
          channel := (ch : Int), rssi := r }) := by
  unfold parseLine parseStripped
  simp only [hblank, hbeacon, h, Bool.false_eq_true, if_false]

theorem parseLine_no_ap (line : String)
    (h : matchAp (pyStrip (lstripPrompt line.data)) = none) :
    ∀ a, parseLine line ≠ some (Ev.apFound a) := by
  intro a hcontra
  unfold parseLine parseStripped at hcontra
  split at hcontra
  · exact Option.noConfusion hcontra
  · split at hcontra
    · exact Option.noConfusion hcontra
    · rw [h] at hcontra
      split at hcontra
      · rename_i x heq
        exact Option.noConfusion heq
      · split at hcontra
        · injection hcontra with h2
          exact Ev.noConfusion h2
        · split at hcontra
          · injection hcontra with h2
            exact Ev.noConfusion h2
          · split at hcontra
            · injection hcontra with h2
              exact Ev.noConfusion h2
            · split at hcontra
              · injection hcontra with h2
                exact Ev.noConfusion h2
              · split at hcontra
                · injection hcontra with h2
                  exact Ev.noConfusion h2
                · split at hcontra
                  · injection hcontra with h2
                    exact Ev.noConfusion h2
                  · split at hcontra
                    · injection hcontra with h2
                      exact Ev.noConfusion h2
                    · injection hcontra with h2
                      exact Ev.noConfusion h2

theorem pyLStrip_cons_neg (c : Char) (t : List Char) (h : isPyWs c = false) :
    pyLStrip (c :: t) = c :: t := by
  unfold pyLStrip
  rw [List.dropWhile_cons, if_neg (by simp [h])]

theorem lstripPrompt_cons_neg (c : Char) (t : List Char)
    (h : (c = '>' || c = ' ') = false) : lstripPrompt (c :: t) = c :: t := by
  unfold lstripPrompt
  rw [List.dropWhile_cons, if_neg (by simp at h ⊢; exact h)]

theorem pyRStrip_eq_self_append (xs ys : List Char) (hy : pyRStrip ys = ys)
    (hne : ys ≠ []) : pyRStrip (xs ++ ys) = xs ++ ys := by
  have hdw : ys.reverse.dropWhile isPyWs = ys.reverse := by
    have := congrArg List.reverse hy
    unfold pyRStrip at this
    rwa [List.reverse_reverse] at this
  unfold pyRStrip
  rw [List.reverse_append, List.dropWhile_append, hdw,
    if_neg (by simp [hne]), List.reverse_append, List.reverse_reverse,
    List.reverse_reverse]

theorem pyRStrip_singleton (c : Char) (h : isPyWs c = false) :
    pyRStrip [c] = [c] := by
  unfold pyRStrip
  simp [List.dropWhile_cons, h]

theorem pyRStrip_ws_concat (xs : List Char) (c : Char) (h : isPyWs c = true) :
    pyRStrip (xs ++ [c]) = pyRStrip xs := by
  unfold pyRStrip
  rw [List.reverse_append]
  simp [List.dropWhile_cons, h]

theorem matchBeacon_cons_false (c : Char) (X : List Char)
    (hb : decide ('b' = c.toLower) = false) : matchBeacon (c :: X) = false := by
  unfold matchBeacon lowerList
  rw [List.map_cons]
  show isStartOf ('b' :: "eacon:".data) (c.toLower :: List.map Char.toLower X)
    = false
  unfold isStartOf
  rw [hb, Bool.false_and]

theorem intTok_head (neg : Bool) (rds R : List Char) (hr : rds ≠ [])
    (hrd : ∀ c ∈ rds, c.isDigit = true) :
    ∃ c R2, intTok neg rds ++ R = c :: R2 ∧ isPyWs c = false ∧
      ((c = '>' || c = ' ') = false) ∧ decide ('b' = c.toLower) = false := by
  cases neg with
  | true => exact ⟨'-', rds ++ R, rfl, by decide, by decide, by decide⟩
  | false =>
    cases rds with
    | nil => exact absurd rfl hr
    | cons c t =>
      have hd : c.isDigit = true := hrd c (List.mem_cons_self c t)
      refine ⟨c, t ++ R, rfl, digit_not_ws c hd, digit_not_prompt c hd, ?_⟩
      rw [digit_toLower c hd]
      have : ¬('b' = c) := by
        intro hh
        rw [← hh] at hd
        exact absurd hd (by decide)
      simp [this]

theorem parseLine_apLine (neg : Bool) (rds cds mac ssid : List Char)
    (hr : rds ≠ []) (hrd : ∀ c ∈ rds, c.isDigit = true)
    (hcne : cds ≠ []) (hcd : ∀ c ∈ cds, c.isDigit = true)
    (hmne : mac ≠ [])
    (hmac : ∀ rest, parseMac (mac ++ rest) = some (mac, rest))
    (hmh : ∀ c, mac.head? = some c → isPyWs c = false)
    (hsL : pyLStrip ssid = ssid) (hsR : pyRStrip ssid = ssid) :
    parseLine (String.mk (apLine neg rds cds mac ssid)) =
      some (Ev.apFound
        { ssid := String.mk ssid, bssid := String.mk (upperList mac),
          channel := (digitsVal cds : Int), rssi := intTokVal neg rds }) := by
  have hform : apLine neg rds cds mac ssid =
      intTok neg rds ++ ([' '] ++ "Ch:".data ++ [' '] ++ cds ++ [' '] ++
        "BSSID:".data ++ [' '] ++ mac ++ [' '] ++ "ESSID:".data ++ [' '] ++
        ssid) := by
    simp [apLine, List.append_assoc]
  obtain ⟨c0, R0, hL, hws0, hpr0, hb0⟩ := intTok_head neg rds
    ([' '] ++ "Ch:".data ++ [' '] ++ cds ++ [' '] ++ "BSSID:".data ++ [' '] ++
      mac ++ [' '] ++ "ESSID:".data ++ [' '] ++ ssid) hr hrd
  have hL2 : apLine neg rds cds mac ssid = c0 :: R0 := hform.trans hL
  have h1 : pyLStrip (apLine neg rds cds mac ssid) =
      apLine neg rds cds mac ssid := by
    rw [hL2]
    exact pyLStrip_cons_neg c0 R0 hws0
  have h2 : lstripPrompt (apLine neg rds cds mac ssid) =
      apLine neg rds cds mac ssid := by
    rw [hL2]
    exact lstripPrompt_cons_neg c0 R0 hpr0
  by_cases hs0 : ssid = []
  · subst hs0
    have e1 : apLine neg rds cds mac [] =
        intTok neg rds ++ [' '] ++ "Ch:".data ++ [' '] ++ cds ++ [' '] ++
          "BSSID:".data ++ [' '] ++ mac ++ [' '] ++ "ESSID:".data ++ [' '] := by
      simp [apLine]
    have hR : pyRStrip (apLine neg rds cds mac []) =
        intTok neg rds ++ [' '] ++ "Ch:".data ++ [' '] ++ cds ++ [' '] ++
          "BSSID:".data ++ [' '] ++ mac ++ [' '] ++ "ESSID:".data := by
      rw [e1, pyRStrip_ws_concat _ ' ' (by decide)]
      exact pyRStrip_eq_self_append _ _ (by rfl) (by simp)
    have hstrip : pyStrip (lstripPrompt
        (String.mk (apLine neg rds cds mac [])).data) =
        intTok neg rds ++ [' '] ++ "Ch:".data ++ [' '] ++ cds ++ [' '] ++
          "BSSID:".data ++ [' '] ++ mac ++ [' '] ++ "ESSID:".data := by
      show pyStrip (lstripPrompt (apLine neg rds cds mac [])) = _
      rw [h2]
      show pyRStrip (pyLStrip (apLine neg rds cds mac [])) = _
      rw [h1, hR]
    have hblank : (pyStrip (String.mk (apLine neg rds cds mac [])).data).isEmpty
        = false := by
      show (pyRStrip (pyLStrip (apLine neg rds cds mac []))).isEmpty = false
      rw [h1, hR]
      simp
    have hm := matchAp_built neg rds cds mac [] [] hr hrd hcne hcd hmne hmac
      hmh rfl rfl
    rw [List.append_nil] at hm
    obtain ⟨c1, R1, hF, hws1, hpr1, hb1⟩ := intTok_head neg rds
      ([' '] ++ "Ch:".data ++ [' '] ++ cds ++ [' '] ++ "BSSID:".data ++
        [' '] ++ mac ++ [' '] ++ "ESSID:".data) hr hrd
    have hformF : intTok neg rds ++ [' '] ++ "Ch:".data ++ [' '] ++ cds ++
        [' '] ++ "BSSID:".data ++ [' '] ++ mac ++ [' '] ++ "ESSID:".data =
        intTok neg rds ++ ([' '] ++ "Ch:".data ++ [' '] ++ cds ++ [' '] ++
          "BSSID:".data ++ [' '] ++ mac ++ [' '] ++ "ESSID:".data) := by
      simp [List.append_assoc]
    have hbk2 : matchBeacon (pyStrip (lstripPrompt
        (String.mk (apLine neg rds cds mac [])).data)) = false := by
      rw [hstrip, hformF.trans hF]
      exact matchBeacon_cons_false c1 R1 hb1
    have hm2 : matchAp (pyStrip (lstripPrompt
        (String.mk (apLine neg rds cds mac [])).data)) =
        some (intTokVal neg rds, digitsVal cds, mac, []) := by
      rw [hstrip]
      exact hm
    exact parseLine_ap _ hblank hbk2 _ _ _ _ hm2
  · have hR : pyRStrip (apLine neg rds cds mac ssid) =
        apLine neg rds cds mac ssid := by
      show pyRStrip ((intTok neg rds ++ [' '] ++ "Ch:".data ++ [' '] ++ cds ++
        [' '] ++ "BSSID:".data ++ [' '] ++ mac ++ [' '] ++ "ESSID:".data ++
        [' ']) ++ ssid) = _
      exact pyRStrip_eq_self_append _ _ hsR hs0
    have hstrip : pyStrip (lstripPrompt
        (String.mk (apLine neg rds cds mac ssid)).data) =
        apLine neg rds cds mac ssid := by
      show pyStrip (lstripPrompt (apLine neg rds cds mac ssid)) = _
      rw [h2]
      show pyRStrip (pyLStrip (apLine neg rds cds mac ssid)) = _
      rw [h1, hR]
    have hblank : (pyStrip
        (String.mk (apLine neg rds cds mac ssid)).data).isEmpty = false := by
      show (pyRStrip (pyLStrip (apLine neg rds cds mac ssid))).isEmpty = false
      rw [h1, hR, hL2]
      simp
    have htail : skipWs ([' '] ++ ssid) = ssid := by
      show skipWs (' ' :: ssid) = ssid
      rw [skipWs_space]
      exact hsL
    have hm := matchAp_built neg rds cds mac ([' '] ++ ssid) ssid hr hrd hcne
      hcd hmne hmac hmh htail hsR
    rw [← List.append_assoc] at hm
    have hbk2 : matchBeacon (pyStrip (lstripPrompt
        (String.mk (apLine neg rds cds mac ssid)).data)) = false := by
      rw [hstrip, hL2]
      exact matchBeacon_cons_false c0 R0 hb0
    have hm2 : matchAp (pyStrip (lstripPrompt
        (String.mk (apLine neg rds cds mac ssid)).data)) =
        some (intTokVal neg rds, digitsVal cds, mac, ssid) := by
      rw [hstrip]
      show matchAp (apLine neg rds cds mac ssid) = _
      rw [show apLine neg rds cds mac ssid =
        intTok neg rds ++ [' '] ++ "Ch:".data ++ [' '] ++ cds ++ [' '] ++
          "BSSID:".data ++ [' '] ++ mac ++ [' '] ++ "ESSID:".data ++ [' '] ++
          ssid from rfl]
      exact hm
    exact parseLine_ap _ hblank hbk2 _ _ _ _ hm2

theorem parseLine_apLineSsidFirst (neg : Bool) (rds cds mac ssid : List Char)
    (hr : rds ≠ []) (hrd : ∀ c ∈ rds, c.isDigit = true)
    (hcne : cds ≠ []) (hcd : ∀ c ∈ cds, c.isDigit = true)
    (hmne : mac ≠ []) (hmR : pyRStrip mac = mac) :
    ∀ a, parseLine (String.mk (apLineSsidFirst neg rds cds mac ssid)) ≠
      some (Ev.apFound a) := by
  have hform : apLineSsidFirst neg rds cds mac ssid =
      intTok neg rds ++ ([' '] ++ "Ch:".data ++ [' '] ++ cds ++ [' '] ++
        "ESSID:".data ++ [' '] ++ ssid ++ [' '] ++ "BSSID:".data ++ [' '] ++
        mac) := by
    simp [apLineSsidFirst, List.append_assoc]
  obtain ⟨c0, R0, hL, hws0, hpr0, hb0⟩ := intTok_head neg rds
    ([' '] ++ "Ch:".data ++ [' '] ++ cds ++ [' '] ++ "ESSID:".data ++ [' '] ++
      ssid ++ [' '] ++ "BSSID:".data ++ [' '] ++ mac) hr hrd
  have hL2 : apLineSsidFirst neg rds cds mac ssid = c0 :: R0 := hform.trans hL
  have h1 : pyLStrip (apLineSsidFirst neg rds cds mac ssid) =
      apLineSsidFirst neg rds cds mac ssid := by
    rw [hL2]
    exact pyLStrip_cons_neg c0 R0 hws0
  have h2 : lstripPrompt (apLineSsidFirst neg rds cds mac ssid) =
      apLineSsidFirst neg rds cds mac ssid := by
    rw [hL2]
    exact lstripPrompt_cons_neg c0 R0 hpr0
  have hR : pyRStrip (apLineSsidFirst neg rds cds mac ssid) =
      apLineSsidFirst neg rds cds mac ssid := by
    show pyRStrip ((intTok neg rds ++ [' '] ++ "Ch:".data ++ [' '] ++ cds ++
      [' '] ++ "ESSID:".data ++ [' '] ++ ssid ++ [' '] ++ "BSSID:".data ++
      [' ']) ++ mac) = _
    exact pyRStrip_eq_self_append _ _ hmR hmne
  have hstrip : pyStrip (lstripPrompt
      (String.mk (apLineSsidFirst neg rds cds mac ssid)).data) =
      apLineSsidFirst neg rds cds mac ssid := by
    show pyStrip (lstripPrompt (apLineSsidFirst neg rds cds mac ssid)) = _
    rw [h2]
    show pyRStrip (pyLStrip (apLineSsidFirst neg rds cds mac ssid)) = _
    rw [h1, hR]
  have hshape : apLineSsidFirst neg rds cds mac ssid =
      intTok neg rds ++ [' '] ++ "Ch:".data ++ [' '] ++ cds ++ [' '] ++
        ('E' :: ("SSID:".data ++ [' '] ++ ssid ++ [' '] ++ "BSSID:".data ++
          [' '] ++ mac)) := by
    simp [apLineSsidFirst, List.append_assoc]
  have hnone : matchAp (pyStrip (lstripPrompt
      (String.mk (apLineSsidFirst neg rds cds mac ssid)).data)) = none := by
    rw [hstrip, hshape]
    exact matchAp_E_none neg rds cds _ hr hrd hcne hcd
  exact parseLine_no_ap _ hnone

/-! ### Support for the remaining claims -/

instance : IsTotal String strLe := ⟨fun a b => le_total a b⟩

instance : IsTrans String strLe := ⟨fun _ _ _ h1 h2 => le_trans h1 h2⟩

theorem dequeAppend_getLast (n : Nat) (hn : 1 ≤ n) (l : List String)
    (x : String) : (dequeAppend n l x).getLast? = some x := by
  show (if (l ++ [x]).length ≤ n then (l ++ [x])
    else List.drop ((l ++ [x]).length - n) (l ++ [x])).getLast? = some x
  split
  · exact List.getLast?_concat l
  · rw [List.drop_append_of_le_length (by simp; omega)]
    exact List.getLast?_concat _

theorem jlookup_eq_none (r : JRecord) (f : String) (h : f ∉ recordKeys r) :
    jlookup r f = none := by
  induction r with
  | nil => rfl
  | cons p t ih =>
    obtain ⟨k, v⟩ := p
    simp only [recordKeys, List.map_cons, List.mem_cons, not_or] at h
    unfold jlookup
    rw [if_neg (fun hh => h.1 hh.symm)]
    exact ih (by simpa [recordKeys] using h.2)

theorem handleEvent_ap_proj (s : EngineState) (a : APFound) :
    (handleEvent s (Ev.apFound a)).apIndex =
      (dedupStep APFound.bssid s.apIndex s.aps a).1 ∧
    (handleEvent s (Ev.apFound a)).aps =
      (dedupStep APFound.bssid s.apIndex s.aps a).2 := by
  obtain ⟨p1, p2, -⟩ := onApFound_proj s a
  obtain ⟨q1, q2, -⟩ := recordEvent_proj (onApFound s a) (Ev.apFound a)
  simp only [handleEvent, engNotify]
  exact ⟨q1.trans p1, q2.trans p2⟩

theorem handleEvent_sta_proj (s : EngineState) (a : StationFound) :
    (handleEvent s (Ev.stationFound a)).staIndex =
      (dedupStep StationFound.mac s.staIndex s.stations a).1 ∧
    (handleEvent s (Ev.stationFound a)).stations =
      (dedupStep StationFound.mac s.staIndex s.stations a).2 := by
  obtain ⟨p1, p2, -⟩ := onStationFound_proj s a
  obtain ⟨-, -, q3, q4, -⟩ := recordEvent_proj (onStationFound s a)
    (Ev.stationFound a)
  simp only [handleEvent, engNotify]
  exact ⟨q3.trans p1, q4.trans p2⟩

theorem handleEvent_ble_proj (s : EngineState) (a : BLEDeviceFound) :
    (handleEvent s (Ev.bleFound a)).bleIndex =
      (dedupStep BLEDeviceFound.mac s.bleIndex s.ble_devices a).1 ∧
    (handleEvent s (Ev.bleFound a)).ble_devices =
      (dedupStep BLEDeviceFound.mac s.bleIndex s.ble_devices a).2 := by
  obtain ⟨p1, p2, -⟩ := onBleDeviceFound_proj s a
  obtain ⟨-, -, -, -, q5, q6, -⟩ := recordEvent_proj (onBleDeviceFound s a)
    (Ev.bleFound a)
  simp only [handleEvent, engNotify]
  exact ⟨q5.trans p1, q6.trans p2⟩

/-- Last-write-wins for one keyed collection, phrased on the dedup pair of
two consecutive `handleEvent` consumptions; shared by the AP, station and
BLE instances. -/
theorem dedup_two_step {α : Type} (key : α → String)
    (idx : List (String × Nat)) (l : List α) (e1 e2 : α)
    (h : IndexInv key idx l) (hk : key e2 = key e1) :
    (dedupStep key (dedupStep key idx l e1).1 (dedupStep key idx l e1).2
        e2).2.length = (dedupStep key idx l e1).2.length ∧
    ∃ i, alookup (dedupStep key (dedupStep key idx l e1).1
        (dedupStep key idx l e1).2 e2).1 (key e2) = some i ∧
      (dedupStep key (dedupStep key idx l e1).1 (dedupStep key idx l e1).2
        e2).2.get? i = some e2 := by
  obtain ⟨hlen, -, hex⟩ := dedupStep_second key idx l e1 e2 h hk
  exact ⟨hlen, hex⟩

theorem drop_takeWhile_len {p : Char → Bool} (l : List Char) :
    l.drop (l.takeWhile p).length = l.dropWhile p := by
  induction l with
  | nil => rfl
  | cons a t ih =>
    rw [List.takeWhile_cons, List.dropWhile_cons]
    split
    · simpa using ih
    · simp

theorem withSuffixCsv_jsonl (stem : List Char) :
    withSuffixCsv (String.mk (stem ++ ".jsonl".data)) =
      String.mk stem ++ ".csv" := by
  unfold withSuffixCsv
  have hrev : (String.mk (stem ++ ".jsonl".data)).data.reverse =
      'l' :: 'n' :: 'o' :: 's' :: 'j' :: '.' :: stem.reverse := by
    show (stem ++ ".jsonl".data).reverse = _
    rw [List.reverse_append]
    rfl
  rw [hrev]
  simp [List.takeWhile_cons, List.dropWhile_cons, List.any_cons]
  rw [drop_takeWhile_len, ← List.reverse_append,
    List.takeWhile_append_dropWhile, List.reverse_reverse]

/-! ### The claims -/

/-- C1 (amended): for every valid access-point discovery line in the
BSSID-before-SSID order the firmware emits, `parseLine` returns an
`ApFound` event with the BSSID canonicalized to uppercase; the
SSID-before-BSSID textual ordering of the same fields is not recognized by
the parser and never yields an `ApFound` event. (The original claim that
both orderings are accepted and yield identical events fails on the code:
`_RE_AP` only matches the BSSID-first order.) Lines never contain an
embedded newline, which `hnl` records. -/
theorem claim1_ap_line_amended (neg : Bool) (rds cds ssid : List Char)
    (a1 b1 a2 b2 a3 b3 a4 b4 a5 b5 a6 b6 : Char)
    (hr : rds ≠ []) (hrd : ∀ c ∈ rds, c.isDigit = true)
    (hcne : cds ≠ []) (hcd : ∀ c ∈ cds, c.isDigit = true)
    (hx1 : isHexC a1 = true) (hx2 : isHexC b1 = true)
    (hx3 : isHexC a2 = true) (hx4 : isHexC b2 = true)
    (hx5 : isHexC a3 = true) (hx6 : isHexC b3 = true)
    (hx7 : isHexC a4 = true) (hx8 : isHexC b4 = true)
    (hx9 : isHexC a5 = true) (hx10 : isHexC b5 = true)
    (hx11 : isHexC a6 = true) (hx12 : isHexC b6 = true)
    (hsL : pyLStrip ssid = ssid) (hsR : pyRStrip ssid = ssid)
    (hnl : '\n' ∉ ssid) :
    parseLine (String.mk (apLine neg rds cds
        (macChars a1 b1 a2 b2 a3 b3 a4 b4 a5 b5 a6 b6) ssid)) =
      some (Ev.apFound
        { ssid := String.mk ssid,
          bssid := String.mk (upperList
            (macChars a1 b1 a2 b2 a3 b3 a4 b4 a5 b5 a6 b6)),
          channel := (digitsVal cds : Int), rssi := intTokVal neg rds }) ∧
    ∀ a, parseLine (String.mk (apLineSsidFirst neg rds cds
        (macChars a1 b1 a2 b2 a3 b3 a4 b4 a5 b5 a6 b6) ssid)) ≠
      some (Ev.apFound a) := by
  have hmne : macChars a1 b1 a2 b2 a3 b3 a4 b4 a5 b5 a6 b6 ≠ [] := by
    simp [macChars]
  have hmac := fun rest => parseMac_built a1 b1 a2 b2 a3 b3 a4 b4 a5 b5 a6 b6
    rest hx1 hx2 hx3 hx4 hx5 hx6 hx7 hx8 hx9 hx10 hx11 hx12
  have hmh : ∀ c,
      (macChars a1 b1 a2 b2 a3 b3 a4 b4 a5 b5 a6 b6).head? = some c →
      isPyWs c = false := by
    intro c hc
    simp only [macChars, List.head?_cons] at hc
    injection hc with h
    subst h
    exact hex_not_ws a1 hx1
  have hmR : pyRStrip (macChars a1 b1 a2 b2 a3 b3 a4 b4 a5 b5 a6 b6) =
      macChars a1 b1 a2 b2 a3 b3 a4 b4 a5 b5 a6 b6 := by
    rw [show macChars a1 b1 a2 b2 a3 b3 a4 b4 a5 b5 a6 b6 =
      [a1, b1, ':', a2, b2, ':', a3, b3, ':', a4, b4, ':', a5, b5, ':', a6] ++
        [b6] from rfl]
    exact pyRStrip_eq_self_append _ _
      (pyRStrip_singleton b6 (hex_not_ws b6 hx12)) (by simp)
  exact ⟨parseLine_apLine neg rds cds _ ssid hr hrd hcne hcd hmne hmac hmh
      hsL hsR,
    parseLine_apLineSsidFirst neg rds cds _ ssid hr hrd hcne hcd hmne hmR⟩

/-- Witness for C1: the amended theorem applied at a concrete line. -/
theorem claim1_witness :
    ((['4', '2'] : List Char) ≠ [] ∧ (['6'] : List Char) ≠ []) ∧
    parseLine (String.mk (apLine true ['4', '2'] ['6']
        (macChars 'a' 'a' 'b' 'b' 'c' 'c' 'd' 'd' 'e' 'e' 'f' 'f')
        "TestNet".data)) =
      some (Ev.apFound
        { ssid := String.mk "TestNet".data,
          bssid := String.mk (upperList
            (macChars 'a' 'a' 'b' 'b' 'c' 'c' 'd' 'd' 'e' 'e' 'f' 'f')),
          channel := (digitsVal ['6'] : Int),
          rssi := intTokVal true ['4', '2'] }) :=
  ⟨⟨by decide, by decide⟩,
    (claim1_ap_line_amended true ['4', '2'] ['6'] "TestNet".data
      'a' 'a' 'b' 'b' 'c' 'c' 'd' 'd' 'e' 'e' 'f' 'f'
      (by decide) (by decide) (by decide) (by decide)
      (by decide) (by decide) (by decide) (by decide) (by decide) (by decide)
      (by decide) (by decide) (by decide) (by decide) (by decide) (by decide)
      (by decide) (by decide) (by decide)).1⟩

/-- Counterexample for C1 as stated: the same fields in SSID-before-BSSID
order parse to `RawLine`, not to the `ApFound` the BSSID-first order
yields, so the two orderings are not both accepted. -/
theorem claim1_counterexample :
    parseLine "-42 Ch: 6 BSSID: aa:bb:cc:dd:ee:ff ESSID: TestNet" =
      some (Ev.apFound
        { ssid := "TestNet", bssid := "AA:BB:CC:DD:EE:FF", channel := 6,
          rssi := -42 }) ∧
    parseLine "-42 Ch: 6 ESSID: TestNet BSSID: aa:bb:cc:dd:ee:ff" =
      some (Ev.rawLine "-42 Ch: 6 ESSID: TestNet BSSID: aa:bb:cc:dd:ee:ff") := by
  constructor
  · rfl
  · rfl

/-- Counterexample for C2 as stated: two BLE events with empty `mac` do
not append two entries; the second replaces the first, leaving a single
entry (the claim requires 2 entries after 2 events). -/
theorem claim2_empty_mac_counterexample :
    (handleEvent (handleEvent initEngine
        (Ev.bleFound { name := "[Apple] iPhone", mac := "", rssi := -40 }))
        (Ev.bleFound { name := "[LG] TV", mac := "", rssi := -70 })).ble_devices
      = [{ name := "[LG] TV", mac := "", rssi := -70 }] ∧
    ([{ name := "[LG] TV", mac := "", rssi := -70 }] :
      List BLEDeviceFound).length ≠ 2 := by
  constructor
  · rfl
  · decide

/-- C2 (amended): the aggregator keys BLE devices by `mac` even when it is
the empty string, so empty-mac events deduplicate against each other:
after a second empty-mac event the collection size is unchanged and the
stored entry equals the second event. -/
theorem claim2_empty_mac_amended (s : EngineState) (e1 e2 : BLEDeviceFound)
    (hInv : EngineInv s) (h1 : e1.mac = "") (h2 : e2.mac = "") :
    (handleEvent (handleEvent s (Ev.bleFound e1))
        (Ev.bleFound e2)).ble_devices.length =
      (handleEvent s (Ev.bleFound e1)).ble_devices.length ∧
    ∃ i, alookup (handleEvent (handleEvent s (Ev.bleFound e1))
        (Ev.bleFound e2)).bleIndex "" = some i ∧
      (handleEvent (handleEvent s (Ev.bleFound e1))
        (Ev.bleFound e2)).ble_devices.get? i = some e2 := by
  obtain ⟨pa1, pa2⟩ := handleEvent_ble_proj s e1
  obtain ⟨pb1, pb2⟩ := handleEvent_ble_proj (handleEvent s (Ev.bleFound e1)) e2
  rw [pb1, pb2, pa1, pa2]
  have hk : e2.mac = e1.mac := by rw [h1, h2]
  obtain ⟨hlen, hex⟩ := dedup_two_step BLEDeviceFound.mac s.bleIndex
    s.ble_devices e1 e2 hInv.2.2 hk
  rw [← h2]
  exact ⟨hlen, hex⟩

/-- Witness for C2 (amended) at concrete empty-mac events. -/
theorem claim2_empty_mac_amended_witness :
    (handleEvent (handleEvent initEngine
        (Ev.bleFound { name := "[Apple] iPhone", mac := "", rssi := -40 }))
        (Ev.bleFound
          { name := "[LG] TV", mac := "", rssi := -70 })).ble_devices.length =
    (handleEvent initEngine
      (Ev.bleFound
        { name := "[Apple] iPhone", mac := "", rssi := -40 })).ble_devices.length :=
  (claim2_empty_mac_amended initEngine
    { name := "[Apple] iPhone", mac := "", rssi := -40 }
    { name := "[LG] TV", mac := "", rssi := -70 }
    engineInv_init rfl rfl).1

/-- Counterexample for C4 as stated: immediately after a successful
StopScan from a state scanning `wifi_ap`, `current_scan` is still
`some "wifi_ap"`, not `none`. -/
theorem claim4_stop_scan_counterexample :
    (stopScan (startWifiScan initEngine)).current_scan = some "wifi_ap" ∧
    (some "wifi_ap" : Option String) ≠ none := by
  constructor
  · rfl
  · decide

/-- C4 (amended): the scan-start and attack commands update
`current_scan` optimistically, but `stop_scan` only sends `stopscan` and
leaves `current_scan` unchanged; it becomes `none` only when a
`ScanStopped` (or `Disconnected`) event is consumed. -/
theorem claim4_current_scan_amended (s : EngineState) :
    (stopScan s).current_scan = s.current_scan ∧
    (stopScan s).sent = s.sent ++ ["stopscan"] ∧
    (startWifiScan s).current_scan = some "wifi_ap" ∧
    (startStationScan s).current_scan = some "wifi_sta" ∧
    (startBleScan s).current_scan = some "ble" ∧
    (attackBeaconFlood s).current_scan = some "attack_beacon" ∧
    (attackRickroll s).current_scan = some "attack_rickroll" ∧
    (handleEvent s Ev.scanStopped).current_scan = none ∧
    (handleEvent s (Ev.disconnected "x")).current_scan = none := by
  refine ⟨rfl, rfl, rfl, rfl, rfl, rfl, rfl, ?_, ?_⟩
  · obtain ⟨-, -, -, -, -, -, q7, -⟩ :=
      recordEvent_proj (onScanStopped s) Ev.scanStopped
    simp only [handleEvent, engNotify]
    exact q7.trans rfl
  · obtain ⟨-, -, -, -, -, -, q7, -⟩ :=
      recordEvent_proj (onDisconnected s) (Ev.disconnected "x")
    simp only [handleEvent, engNotify]
    exact q7.trans rfl

/-- C3: consuming a second discovery event with the same identity key
(same `bssid` for access points, same `mac` for stations) leaves the
collection size unchanged, stores the second event's payload
field-for-field at the indexed position, and the collection never holds
two entries with the same key. -/
theorem claim3_last_write_wins (s : EngineState) (e1 e2 : APFound)
    (f1 f2 : StationFound) (hInv : EngineInv s) (hk : e2.bssid = e1.bssid)
    (hm : f2.mac = f1.mac) :
    ((handleEvent (handleEvent s (Ev.apFound e1))
        (Ev.apFound e2)).aps.length =
      (handleEvent s (Ev.apFound e1)).aps.length ∧
     (∃ i, alookup (handleEvent (handleEvent s (Ev.apFound e1))
          (Ev.apFound e2)).apIndex e2.bssid = some i ∧
        (handleEvent (handleEvent s (Ev.apFound e1))
          (Ev.apFound e2)).aps.get? i = some e2) ∧
     (handleEvent (handleEvent s (Ev.apFound e1))
        (Ev.apFound e2)).aps.Pairwise (fun x y => x.bssid ≠ y.bssid)) ∧
    ((handleEvent (handleEvent s (Ev.stationFound f1))
        (Ev.stationFound f2)).stations.length =
      (handleEvent s (Ev.stationFound f1)).stations.length ∧
     (∃ i, alookup (handleEvent (handleEvent s (Ev.stationFound f1))
          (Ev.stationFound f2)).staIndex f2.mac = some i ∧
        (handleEvent (handleEvent s (Ev.stationFound f1))
          (Ev.stationFound f2)).stations.get? i = some f2) ∧
     (handleEvent (handleEvent s (Ev.stationFound f1))
        (Ev.stationFound f2)).stations.Pairwise (fun x y => x.mac ≠ y.mac)) := by
  constructor
  · obtain ⟨pa1, pa2⟩ := handleEvent_ap_proj s e1
    obtain ⟨pb1, pb2⟩ := handleEvent_ap_proj (handleEvent s (Ev.apFound e1)) e2
    have hinv2 : EngineInv (handleEvent (handleEvent s (Ev.apFound e1))
        (Ev.apFound e2)) :=
      engineInv_handleEvent _ _ (engineInv_handleEvent _ _ hInv)
    refine ⟨?_, ?_, pairwise_of_indexInv APFound.bssid hinv2.1⟩
    · rw [pb2, pa1, pa2]
      exact (dedup_two_step APFound.bssid s.apIndex s.aps e1 e2 hInv.1 hk).1
    · rw [pb1, pb2, pa1, pa2]
      exact (dedup_two_step APFound.bssid s.apIndex s.aps e1 e2 hInv.1 hk).2
  · obtain ⟨pa1, pa2⟩ := handleEvent_sta_proj s f1
    obtain ⟨pb1, pb2⟩ := handleEvent_sta_proj
      (handleEvent s (Ev.stationFound f1)) f2
    have hinv2 : EngineInv (handleEvent (handleEvent s (Ev.stationFound f1))
        (Ev.stationFound f2)) :=
      engineInv_handleEvent _ _ (engineInv_handleEvent _ _ hInv)
    refine ⟨?_, ?_, pairwise_of_indexInv StationFound.mac hinv2.2.1⟩
    · rw [pb2, pa1, pa2]
      exact (dedup_two_step StationFound.mac s.staIndex s.stations f1 f2
        hInv.2.1 hm).1
    · rw [pb1, pb2, pa1, pa2]
      exact (dedup_two_step StationFound.mac s.staIndex s.stations f1 f2
        hInv.2.1 hm).2

/-- Witness for C3 at two concrete same-bssid AP events. -/
theorem claim3_witness :
    (handleEvent (handleEvent initEngine
        (Ev.apFound
          { ssid := "N1", bssid := "AA:BB:CC:DD:EE:01", channel := 1,
            rssi := -40 }))
        (Ev.apFound
          { ssid := "N2", bssid := "AA:BB:CC:DD:EE:01", channel := 6,
            rssi := -55 })).aps.length =
    (handleEvent initEngine
      (Ev.apFound
        { ssid := "N1", bssid := "AA:BB:CC:DD:EE:01", channel := 1,
          rssi := -40 })).aps.length :=
  (claim3_last_write_wins initEngine
    { ssid := "N1", bssid := "AA:BB:CC:DD:EE:01", channel := 1, rssi := -40 }
    { ssid := "N2", bssid := "AA:BB:CC:DD:EE:01", channel := 6, rssi := -55 }
    { mac := "11:22:33:44:55:66", rssi := -50,
      associated_bssid := "AA:BB:CC:DD:EE:01" }
    { mac := "11:22:33:44:55:66", rssi := -60,
      associated_bssid := "AA:BB:CC:DD:EE:02" }
    engineInv_init rfl rfl).1.1

/-- Counterexample for C5 as stated: after StartSession twice from the
initial state, two session file handles are open at once. -/
theorem claim5_session_counterexample :
    (openHandles (runOps initEngine [EngOp.sessionStart,
      EngOp.sessionStart])).length = 2 ∧ ¬(2 ≤ 1) := by
  constructor
  · rfl
  · decide

/-- C5 (amended): a StartSession call made while a session is already
recording replaces the tracked handle without closing the previous file:
any open handle that is not the active recording target stays open (is
never closed) across every further sequence of engine operations, and
never becomes the active target again. -/
theorem claim5_session_amended (s : EngineState) (ops : List EngOp) (h : Nat)
    (hopen : h ∈ openHandles s) (hactive : s.session_file ≠ some h) :
    h ∈ openHandles (runOps s ops) ∧
    (runOps s ops).session_file ≠ some h := by
  rw [mem_openHandles] at hopen
  have h3 := leakedOpen_runOps s ops h ⟨hopen.2, hactive, hopen.1⟩
  exact ⟨(mem_openHandles _ _).2 ⟨h3.2.2, h3.1⟩, h3.2.1⟩

/-- Witness for C5 (amended): handle 0, leaked by a second StartSession,
survives a further stop/start/stop sequence un-closed. -/
theorem claim5_session_amended_witness :
    0 ∈ openHandles (runOps (runOps initEngine [EngOp.sessionStart,
      EngOp.sessionStart]) [EngOp.sessionStop, EngOp.sessionStart,
      EngOp.sessionStop]) :=
  (claim5_session_amended (runOps initEngine [EngOp.sessionStart,
    EngOp.sessionStart]) [EngOp.sessionStop, EngOp.sessionStart,
    EngOp.sessionStop] 0 (by decide) (by decide)).1

/-- A list is a starting segment of itself extended. -/
theorem isStartOf_self_append (l X : List Char) :
    isStartOf l (l ++ X) = true := by
  induction l with
  | nil => rfl
  | cons a t ih => simp [isStartOf, ih]

/-- A starting segment occurs as a substring. -/
theorem hasSub_of_start (needle hay : List Char)
    (h : isStartOf needle hay = true) : hasSub needle hay = true := by
  cases hay with
  | nil =>
    cases needle with
    | nil => rfl
    | cons a t => exact absurd h (by simp [isStartOf])
  | cons c t => simp [hasSub, h]

/-- The invalid-target log message contains the text
`Invalid BLE spam target`. -/
theorem invalidBleMsg_has_needle (target : String) :
    hasSub "Invalid BLE spam target".data (invalidBleMsg target).data
      = true := by
  have hdata : (invalidBleMsg target).data =
      "Invalid BLE spam target".data ++ (": '".data ++ (target.data ++
        "' (valid: \x7b'apple', 'samsung', 'google', 'windows', 'flipper', 'all'\x7d)".data)) := by
    unfold invalidBleMsg
    simp only [String.data_append, List.append_assoc]
    rfl
  rw [hdata]
  exact hasSub_of_start _ _ (isStartOf_self_append _ _)

/-- C6: an invalid BLE-spam target or an out-of-range deauth index sends
nothing over the link, leaves `current_scan` unchanged, appends an
activity-log entry (for BleSpam containing "Invalid BLE spam target") and
notifies observers. Both operations are total functions of the state, so
no exception propagates to the caller. -/
theorem claim6_invalid_args (s : EngineState) (target : String) (i : Int)
    (ht : target ∉ validTargets)
    (hi : i < 0 ∨ (s.aps.length : Int) ≤ i) :
    (bleSpam s target).sent = s.sent ∧
    (bleSpam s target).current_scan = s.current_scan ∧
    (bleSpam s target).activity_log.getLast? = some (invalidBleMsg target) ∧
    hasSub "Invalid BLE spam target".data (invalidBleMsg target).data = true ∧
    (bleSpam s target).notified = s.notified ++ ["update"] ∧
    (attackDeauth s i).sent = s.sent ∧
    (attackDeauth s i).current_scan = s.current_scan ∧
    (attackDeauth s i).activity_log.getLast? =
      some ("Invalid AP index: " ++ toString i) ∧
    (attackDeauth s i).notified = s.notified ++ ["update"] := by
  have hb : bleSpam s target =
      engNotify (engLog s (invalidBleMsg target)) "update" := by
    unfold bleSpam
    rw [if_neg ht]
  have hd : attackDeauth s i =
      engNotify (engLog s ("Invalid AP index: " ++ toString i)) "update" := by
    unfold attackDeauth
    rw [if_pos]
    rcases hi with hi | hi
    · simp [hi]
    · simp [hi]
  rw [hb, hd]
  refine ⟨rfl, rfl, ?_, invalidBleMsg_has_needle target, rfl, rfl, rfl, ?_,
    rfl⟩
  · exact dequeAppend_getLast _ (by norm_num [activityLogMax]) _ _
  · exact dequeAppend_getLast _ (by norm_num [activityLogMax]) _ _

/-- Witness for C6 at `BleSpam("bogus")` and deauth index `-1`. -/
theorem claim6_invalid_args_witness :
    ("bogus" ∉ validTargets ∧
      ((-1 : Int) < 0 ∨ ((initEngine.aps.length : Int) ≤ (-1 : Int)))) ∧
    (bleSpam initEngine "bogus").sent = initEngine.sent :=
  ⟨⟨by decide, Or.inl (by decide)⟩,
    (claim6_invalid_args initEngine "bogus" (-1) (by decide)
      (Or.inl (by decide))).1⟩

/-- C8: parsing is total; a non-blank line matching no recognized pattern
produces exactly one `RawLine` event carrying the original line text,
while a whitespace-only line is recorded into the raw-line history (as its
newest element) but produces no event at all. -/
theorem claim8_parse_total :
    (∀ (line : String) (hist : List String),
      (pyStrip line.data).isEmpty = true →
      parseLine line = none ∧
        (handleLineHist hist line).getLast? = some line) ∧
    (∀ line : String, (pyStrip line.data).isEmpty = false →
      matchBeacon (pyStrip (lstripPrompt line.data)) = false →
      matchAp (pyStrip (lstripPrompt line.data)) = none →
      matchStation (pyStrip (lstripPrompt line.data)) = none →
      matchBleNamed (pyStrip (lstripPrompt line.data)) = none →
      matchBleMac (pyStrip (lstripPrompt line.data)) = none →
      searchScanStartedAp (pyStrip (lstripPrompt line.data)) = false →
      searchScanStartedBt (pyStrip (lstripPrompt line.data)) = false →
      searchScanStartedSta (pyStrip (lstripPrompt line.data)) = false →
      searchScanStopped (pyStrip (lstripPrompt line.data)) = false →
      parseLine line = some (Ev.rawLine line)) := by
  constructor
  · intro line hist hblank
    constructor
    · unfold parseLine
      rw [hblank]
      rfl
    · exact dequeAppend_getLast 500 (by norm_num) hist line
  · intro line h0 h1 h2 h3 h4 h5 h6 h7 h8 h9
    unfold parseLine parseStripped
    simp only [h0, h1, h2, h3, h4, h5, h6, h7, h8, h9, Bool.false_eq_true,
      if_false]

/-- Witness for C8 on a blank line and on `hello world`. -/
theorem claim8_parse_total_witness :
    (parseLine "   " = none ∧
      (handleLineHist [] "   ").getLast? = some "   ") ∧
    parseLine "hello world" = some (Ev.rawLine "hello world") :=
  ⟨claim8_parse_total.1 "   " [] (by decide),
    claim8_parse_total.2 "hello world" (by decide) (by decide) (by decide)
      (by decide) (by decide) (by decide) (by decide) (by decide) (by decide)
      (by decide)⟩

/-- C9: `connect` with the explicit empty-string port falls back to
auto-detection exactly as with no port (Python `or` treats "" as falsy):
with no glob candidates it raises the not-found error rather than trying
to open "", and any path it does open is one of the glob candidates. -/
theorem claim9_connect_empty_port (gs : List String) :
    connectResolve false (some "") gs = connectResolve false none gs ∧
    connectResolve false (some "") [] = ConnectOutcome.noPort ∧
    (∀ p, connectResolve false (some "") gs = ConnectOutcome.openPort p →
      p ∈ gs) := by
  refine ⟨rfl, rfl, ?_⟩
  intro p hp
  unfold connectResolve pyOr at hp
  simp only [if_pos rfl] at hp
  cases hq : autoDetectPort gs with
  | none =>
    rw [hq] at hp
    exact absurd hp (by simp)
  | some q =>
    rw [hq] at hp
    have hqp : q = p := by
      injection hp
    subst hqp
    have hmem : q ∈ List.insertionSort strLe gs := by
      refine List.mem_of_mem_head? ?_
      show q ∈ autoDetectPort gs
      rw [hq]
      rfl
    exact (List.perm_insertionSort strLe gs).subset hmem

/-- Witness for C9 with one concrete candidate path. -/
theorem claim9_connect_empty_port_witness :
    connectResolve false (some "") ["/dev/cu.usbserial-1"] =
      ConnectOutcome.openPort "/dev/cu.usbserial-1" ∧
    "/dev/cu.usbserial-1" ∈ ["/dev/cu.usbserial-1"] :=
  ⟨by decide,
    (claim9_connect_empty_port ["/dev/cu.usbserial-1"]).2.2
      "/dev/cu.usbserial-1" (by decide)⟩

/-- C10: every aggregator operation (consuming any event, every command,
and clear_results) preserves the index-consistency invariant of the three
dedup collections: each index entry points at a valid position holding an
element with the indexed key, each stored element's key maps back to its
own position, and the index has no duplicate keys. -/
theorem claim10_index_consistency (s : EngineState) (op : EngOp)
    (hInv : EngineInv s) : EngineInv (applyOp s op) :=
  engineInv_applyOp s op hInv

/-- Witness for C10: the invariant after one operation from the initial
state. -/
theorem claim10_index_consistency_witness :
    EngineInv (applyOp initEngine (EngOp.event (Ev.apFound
      { ssid := "N1", bssid := "AA:BB:CC:DD:EE:01", channel := 1,
        rssi := -40 }))) :=
  claim10_index_consistency initEngine (EngOp.event (Ev.apFound
    { ssid := "N1", bssid := "AA:BB:CC:DD:EE:01", channel := 1,
      rssi := -40 })) engineInv_init

/-- C7: for a session file whose records carry `timestamp` and
`event_type` keys, the CSV export orders columns with `timestamp` first,
the event-type column second, then the remaining field names of the union
of all keys sorted lexically; it emits one row per record with a field
absent from a record rendered as the empty cell, writes the CSV beside
the source file with a `.csv` extension and returns the CSV text. -/
theorem claim7_export_csv (stem : List Char) (rs : List JRecord)
    (ht : "timestamp" ∈ keysUnion rs) (he : "event_type" ∈ keysUnion rs) :
    (∃ rest, exportFieldnames rs = "timestamp" :: "event_type" :: rest ∧
       List.Sorted strLe rest ∧
       (∀ f, f ∈ rest ↔ f ∈ keysUnion rs ∧ f ∉ priorityCols)) ∧
    (exportRows rs).length = rs.length ∧
    (∀ r ∈ rs, ∀ i f, (exportFieldnames rs).get? i = some f →
       f ∉ recordKeys r →
       (rowCells (exportFieldnames rs) r).get? i = some "") ∧
    exportSessionCsv (String.mk (stem ++ ".jsonl".data)) rs =
      (String.mk stem ++ ".csv", exportCsvText rs) := by
  refine ⟨?_, by simp [exportRows], ?_, ?_⟩
  · refine ⟨List.insertionSort strLe ((keysUnion rs).filter
      (fun f => f ∉ priorityCols)), ?_, ?_, ?_⟩
    · unfold exportFieldnames
      simp [priorityCols, ht, he]
    · exact List.sorted_insertionSort strLe _
    · intro f
      rw [List.mem_insertionSort, List.mem_filter]
      simp
  · intro r hr i f hf habs
    unfold rowCells
    rw [List.get?_map, hf]
    simp [jlookup_eq_none r f habs]
  · unfold exportSessionCsv
    rw [withSuffixCsv_jsonl]

/-- Witness for C7 on a one-record session. -/
theorem claim7_export_csv_witness :
    ("timestamp" ∈ keysUnion [[("timestamp", JVal.jstr "t"),
        ("event_type", JVal.jstr "APFound"), ("ssid", JVal.jstr "x")]] ∧
      "event_type" ∈ keysUnion [[("timestamp", JVal.jstr "t"),
        ("event_type", JVal.jstr "APFound"), ("ssid", JVal.jstr "x")]]) ∧
    (exportRows [[("timestamp", JVal.jstr "t"),
        ("event_type", JVal.jstr "APFound"),
        ("ssid", JVal.jstr "x")]]).length =
      ([[("timestamp", JVal.jstr "t"), ("event_type", JVal.jstr "APFound"),
        ("ssid", JVal.jstr "x")]] : List JRecord).length :=
  ⟨⟨by decide, by decide⟩,
    (claim7_export_csv "/tmp/s".data
      [[("timestamp", JVal.jstr "t"), ("event_type", JVal.jstr "APFound"),
        ("ssid", JVal.jstr "x")]] (by decide) (by decide)).2.1⟩

end Marauder
